import Mathlib

/-!
# Verification of the gameframework message-routing subsystem

Shallow embedding of `FlutterMessageRouter.cpp`, `FlutterBridge.cpp` and the
chunked binary-transfer protocol of `FlutterBridge.h` (Unreal plugin of the
gameframework repository), together with proofs of the behavioural properties
stated in the specification.

Modelling conventions:
* `FString` is modelled as `List Char` (`FStr`), so that cache-key
  concatenation and prefix tests are ordinary list operations.
* `TMap` is modelled as an association list with update-in-place `Add`
  semantics (`mapAdd`), exactly mirroring `TMap::Add` (overwrite on existing
  key) and `TMap::Remove`.
* Unreal delegates are modelled as a record carrying a `bound` flag (the
  result of `IsBound()`) and an identifier; executing a delegate is recorded
  as an observable event (`REvent`) instead of a side effect.
* `UObject*` handles are modelled as `Nat`, a null pointer as `Option.none`.
-/

namespace GameFramework

/-- Strings of the source (`FString`), modelled as lists of characters. -/
abbrev FStr := List Char

/-! ## Association-list model of `TMap` -/

/-- `TMap::Find`: first value stored under key `k`. -/
def mapFind {κ α : Type} [DecidableEq κ] (l : List (κ × α)) (k : κ) : Option α :=
  match l with
  | [] => none
  | p :: rest => if p.1 = k then some p.2 else mapFind rest k

/-- `TMap::Contains`. -/
def mapContains {κ α : Type} [DecidableEq κ] (l : List (κ × α)) (k : κ) : Bool :=
  match l with
  | [] => false
  | p :: rest => if p.1 = k then true else mapContains rest k

/-- `TMap::Add`: overwrite the value under an existing key, else append. -/
def mapAdd {κ α : Type} [DecidableEq κ] (l : List (κ × α)) (k : κ) (v : α) :
    List (κ × α) :=
  match l with
  | [] => [(k, v)]
  | p :: rest => if p.1 = k then (k, v) :: rest else p :: mapAdd rest k v

/-- `TMap::Remove`: delete every entry stored under key `k`. -/
def mapRemove {κ α : Type} [DecidableEq κ] (l : List (κ × α)) (k : κ) :
    List (κ × α) :=
  l.filter (fun p => p.1 ≠ k)

/-! ## Router data model (`FlutterMessageRouter.h`) -/

/-- A dynamic delegate (`FFlutterMethodDelegate` / `FFlutterBinaryMethodDelegate`):
`bound` is the value of `IsBound()`, `id` identifies the bound callback. -/
structure MDelegate where
  bound : Bool
  id : Nat
  deriving DecidableEq, Repr

/-- `FQueuedFlutterMessage`. -/
structure FQueuedFlutterMessage where
  Target : FStr
  Method : FStr
  Data : FStr
  BinaryData : List Nat
  bIsBinary : Bool
  deriving DecidableEq, Repr

/-- `FFlutterRouterStatistics`. -/
structure FFlutterRouterStatistics where
  MessagesRouted : Nat
  MessagesDropped : Nat
  RegisteredTargets : Nat
  CachedDelegates : Nat
  QueuedMessages : Nat
  deriving DecidableEq, Repr

/-- The mutable state of `UFlutterMessageRouter`. -/
structure RouterState where
  Targets : List (FStr × Nat)
  SingletonFlags : List (FStr × Bool)
  CachedDelegates : List (FStr × MDelegate)
  CachedBinaryDelegates : List (FStr × MDelegate)
  MessageQueue : List FQueuedFlutterMessage
  bQueueUnknownTargets : Bool
  MaxQueueSize : Nat
  Statistics : FFlutterRouterStatistics
  deriving DecidableEq, Repr

/-- Observable delegate executions. -/
inductive REvent where
  | textCall (id : Nat) (method : FStr) (data : FStr)
  | binCall (id : Nat) (method : FStr) (data : List Nat)
  deriving DecidableEq, Repr

/-- The freshly constructed router (`UFlutterMessageRouter` constructor). -/
def initialRouter : RouterState :=
  { Targets := []
    SingletonFlags := []
    CachedDelegates := []
    CachedBinaryDelegates := []
    MessageQueue := []
    bQueueUnknownTargets := true
    MaxQueueSize := 1000
    Statistics := ⟨0, 0, 0, 0, 0⟩ }

/-! ## Router operations (`FlutterMessageRouter.cpp`) -/

/-- `GetCacheKey`: `FString::Printf(TEXT("%s:%s"), *Target, *Method)`. -/
def GetCacheKey (target method : FStr) : FStr :=
  target ++ [':'] ++ method

/-- `TryRouteCached`: finds the delegate, checks `IsBound`, executes. -/
def TryRouteCached (s : RouterState) (cacheKey method data : FStr) :
    Bool × List REvent :=
  match mapFind s.CachedDelegates cacheKey with
  | some d => if d.bound then (true, [.textCall d.id method data]) else (false, [])
  | none => (false, [])

/-- `TryRouteBinaryCached`. -/
def TryRouteBinaryCached (s : RouterState) (cacheKey method : FStr)
    (data : List Nat) : Bool × List REvent :=
  match mapFind s.CachedBinaryDelegates cacheKey with
  | some d => if d.bound then (true, [.binCall d.id method data]) else (false, [])
  | none => (false, [])

/-- `QueueMessage`: drop-oldest on overflow, append at tail. -/
def QueueMessage (s : RouterState) (target method data : FStr) : RouterState :=
  let q0 := if s.MessageQueue.length ≥ s.MaxQueueSize
            then s.MessageQueue.drop 1 else s.MessageQueue
  let q1 := q0 ++ [⟨target, method, data, [], false⟩]
  { s with MessageQueue := q1
           Statistics := { s.Statistics with QueuedMessages := q1.length } }

/-- `RouteMessage`. -/
def RouteMessage (s : RouterState) (target method data : FStr) :
    RouterState × Bool × List REvent :=
  let key := GetCacheKey target method
  let hit := TryRouteCached s key method data
  if hit.1 then
    ({ s with Statistics :=
        { s.Statistics with MessagesRouted := s.Statistics.MessagesRouted + 1 } },
     true, hit.2)
  else if mapContains s.Targets target then
    ({ s with Statistics :=
        { s.Statistics with MessagesDropped := s.Statistics.MessagesDropped + 1 } },
     false, [])
  else if s.bQueueUnknownTargets then
    (QueueMessage s target method data, true, [])
  else
    ({ s with Statistics :=
        { s.Statistics with MessagesDropped := s.Statistics.MessagesDropped + 1 } },
     false, [])

/-- `RouteBinaryMessage`: identical dispatch, but queuing of unknown-target
messages is inlined and, when the queue is full, drops the new message while
still returning `true`. -/
def RouteBinaryMessage (s : RouterState) (target method : FStr)
    (data : List Nat) : RouterState × Bool × List REvent :=
  let key := GetCacheKey target method
  let hit := TryRouteBinaryCached s key method data
  if hit.1 then
    ({ s with Statistics :=
        { s.Statistics with MessagesRouted := s.Statistics.MessagesRouted + 1 } },
     true, hit.2)
  else if mapContains s.Targets target then
    ({ s with Statistics :=
        { s.Statistics with MessagesDropped := s.Statistics.MessagesDropped + 1 } },
     false, [])
  else if s.bQueueUnknownTargets then
    if s.MessageQueue.length < s.MaxQueueSize then
      let q1 := s.MessageQueue ++ [⟨target, method, [], data, true⟩]
      ({ s with MessageQueue := q1
                Statistics := { s.Statistics with QueuedMessages := q1.length } },
       true, [])
    else
      ({ s with Statistics :=
          { s.Statistics with MessagesDropped := s.Statistics.MessagesDropped + 1 } },
       true, [])
  else
    ({ s with Statistics :=
        { s.Statistics with MessagesDropped := s.Statistics.MessagesDropped + 1 } },
     false, [])

/-- One iteration of the `FlushQueue` loop body. -/
def FlushStep (acc : RouterState × List REvent) (msg : FQueuedFlutterMessage) :
    RouterState × List REvent :=
  let st := acc.1
  if msg.bIsBinary then
    let r := RouteBinaryMessage st msg.Target msg.Method msg.BinaryData
    if r.2.1 then (r.1, acc.2 ++ r.2.2)
    else if r.1.bQueueUnknownTargets && !(mapContains r.1.Targets msg.Target) then
      ({ r.1 with MessageQueue := r.1.MessageQueue ++ [msg] }, acc.2 ++ r.2.2)
    else (r.1, acc.2 ++ r.2.2)
  else
    let r := RouteMessage st msg.Target msg.Method msg.Data
    if r.2.1 then (r.1, acc.2 ++ r.2.2)
    else if r.1.bQueueUnknownTargets && !(mapContains r.1.Targets msg.Target) then
      ({ r.1 with MessageQueue := r.1.MessageQueue ++ [msg] }, acc.2 ++ r.2.2)
    else (r.1, acc.2 ++ r.2.2)

/-- `FlushQueue`: snapshot, clear, re-route each entry in order, finally
refresh the queued-message statistic. -/
def FlushQueue (s : RouterState) : RouterState × List REvent :=
  if s.MessageQueue.length = 0 then (s, [])
  else
    let msgs := s.MessageQueue
    let r := msgs.foldl FlushStep ({ s with MessageQueue := [] }, [])
    ({ r.1 with Statistics :=
        { r.1.Statistics with QueuedMessages := r.1.MessageQueue.length } },
     r.2)

/-- `RegisterTarget`. Null handles and singleton collisions are rejected
without mutation; a successful registration updates the statistics and
flushes the queue. -/
def RegisterTarget (s : RouterState) (name : FStr) (target : Option Nat)
    (bIsSingleton : Bool) : RouterState × List REvent :=
  match target with
  | none => (s, [])
  | some h =>
    if bIsSingleton && mapContains s.Targets name then (s, [])
    else
      let s1 := { s with Targets := mapAdd s.Targets name h
                         SingletonFlags := mapAdd s.SingletonFlags name bIsSingleton }
      let s2 := { s1 with Statistics :=
          { s1.Statistics with RegisteredTargets := s1.Targets.length } }
      FlushQueue s2

/-- `UnregisterTarget`: remove the target, its singleton flag, and every
cached delegate (text and binary) whose key starts with `name ++ ":"`. -/
def UnregisterTarget (s : RouterState) (name : FStr) : RouterState :=
  if mapContains s.Targets name then
    let targets := mapRemove s.Targets name
    let flags := mapRemove s.SingletonFlags name
    let cached := (s.CachedDelegates).filter
      (fun p => !((name ++ [':']).isPrefixOf p.1))
    let cachedBin := (s.CachedBinaryDelegates).filter
      (fun p => !((name ++ [':']).isPrefixOf p.1))
    { s with Targets := targets
             SingletonFlags := flags
             CachedDelegates := cached
             CachedBinaryDelegates := cachedBin
             Statistics := { s.Statistics with
                RegisteredTargets := targets.length
                CachedDelegates := cached.length + cachedBin.length } }
  else s

/-- `IsTargetRegistered`. -/
def IsTargetRegistered (s : RouterState) (name : FStr) : Bool :=
  mapContains s.Targets name

/-- `RegisterMethod`. -/
def RegisterMethod (s : RouterState) (targetName methodName : FStr)
    (delegate : MDelegate) : RouterState :=
  let cached := mapAdd s.CachedDelegates (GetCacheKey targetName methodName) delegate
  { s with CachedDelegates := cached
           Statistics := { s.Statistics with
              CachedDelegates := cached.length + s.CachedBinaryDelegates.length } }

/-- `RegisterBinaryMethod`. -/
def RegisterBinaryMethod (s : RouterState) (targetName methodName : FStr)
    (delegate : MDelegate) : RouterState :=
  let cachedBin := mapAdd s.CachedBinaryDelegates (GetCacheKey targetName methodName) delegate
  { s with CachedBinaryDelegates := cachedBin
           Statistics := { s.Statistics with
              CachedDelegates := s.CachedDelegates.length + cachedBin.length } }

/-- `UnregisterMethod`. -/
def UnregisterMethod (s : RouterState) (targetName methodName : FStr) :
    RouterState :=
  let key := GetCacheKey targetName methodName
  let cached := mapRemove s.CachedDelegates key
  let cachedBin := mapRemove s.CachedBinaryDelegates key
  { s with CachedDelegates := cached
           CachedBinaryDelegates := cachedBin
           Statistics := { s.Statistics with
              CachedDelegates := cached.length + cachedBin.length } }

/-- `ClearQueue`. -/
def ClearQueue (s : RouterState) : RouterState :=
  { s with MessageQueue := []
           Statistics := { s.Statistics with QueuedMessages := 0 } }

/-- `SetQueueUnknownTargets`. -/
def SetQueueUnknownTargets (s : RouterState) (bEnable : Bool) : RouterState :=
  { s with bQueueUnknownTargets := bEnable }

/-- `SetMaxQueueSize`: clamp to at least 1, trim from the head. -/
def SetMaxQueueSize (s : RouterState) (size : Int) : RouterState :=
  let m := (max 1 size).toNat
  let q := s.MessageQueue.drop (s.MessageQueue.length - m)
  { s with MaxQueueSize := m
           MessageQueue := q
           Statistics := { s.Statistics with QueuedMessages := q.length } }

/-- `ResetStatistics`: zero the traffic counters, recompute the derived ones. -/
def ResetStatistics (s : RouterState) : RouterState :=
  { s with Statistics :=
      ⟨0, 0, s.Targets.length,
       s.CachedDelegates.length + s.CachedBinaryDelegates.length,
       s.MessageQueue.length⟩ }

/-! ## Binary transfer manager (`FlutterBridge.h` §4.4 of the spec)

The receiver-side reassembly functions (`ReceiveBinaryChunkHeader`,
`ReceiveBinaryChunkData`, `ReceiveBinaryChunkFooter`,
`AssembleChunkedTransfer`, `CalculateCRC32`) are declared in
`FlutterBridge.h` but their implementation is not part of the sources
available here, so they are modelled from the specification. -/

/-- Modelled from the spec: `CalculateCRC32` — standard CRC32 (polynomial
`0xEDB88320`, reflected form) over the raw byte sequence. One shift-xor
round on the running remainder. -/
def crc32Round (crc : Nat) : Nat :=
  if crc % 2 = 1 then (crc / 2) ^^^ 0xEDB88320 else crc / 2

/-- Modelled from the spec: fold one byte into the CRC32 remainder. -/
def crc32Byte (crc b : Nat) : Nat :=
  crc32Round^[8] (crc ^^^ (b % 256))

/-- Modelled from the spec: CRC32 of a byte sequence. -/
def CalculateCRC32 (data : List Nat) : Nat :=
  (data.foldl crc32Byte 0xFFFFFFFF) ^^^ 0xFFFFFFFF

/-- `FChunkedTransfer` (declared in `FlutterBridge.h`). `Chunks` maps a chunk
index to its bytes; `ReceivedChunks` counts the distinct indices received
(duplicate indices overwrite idempotently, per the spec). -/
structure FChunkedTransfer where
  Target : FStr
  Method : FStr
  TotalSize : Nat
  TotalChunks : Nat
  ExpectedChecksum : Nat
  Chunks : List (Nat × List Nat)
  ReceivedChunks : Nat
  deriving DecidableEq, Repr

/-- The bridge-facade state relevant to binary transfers: the active-transfer
map plus the router the reassembled payload is delivered through. -/
structure BridgeState where
  router : RouterState
  ActiveTransfers : List (FStr × FChunkedTransfer)
  deriving DecidableEq, Repr

/-- Concatenation of the received chunks in index order. -/
def Reassemble (chunks : List (Nat × List Nat)) (totalChunks : Nat) : List Nat :=
  ((List.range totalChunks).map (fun i => (mapFind chunks i).getD [])).flatten

/-- Modelled from the spec: `AssembleChunkedTransfer` — when the transfer is
present, concatenate its chunks in index order, delete the transfer entry,
verify the CRC32 and on success deliver the payload through
`RouteBinaryMessage`; on mismatch discard without delivery. -/
def AssembleChunkedTransfer (s : BridgeState) (transferId : FStr) :
    BridgeState × List REvent :=
  match mapFind s.ActiveTransfers transferId with
  | none => (s, [])
  | some t =>
    let data := Reassemble t.Chunks t.TotalChunks
    let remaining := mapRemove s.ActiveTransfers transferId
    if CalculateCRC32 data = t.ExpectedChecksum then
      let r := RouteBinaryMessage s.router t.Target t.Method data
      ({ router := r.1, ActiveTransfers := remaining }, r.2.2)
    else
      ({ s with ActiveTransfers := remaining }, [])

/-- Modelled from the spec: `ReceiveBinaryChunkHeader` — create the transfer
entry (`Started` state). -/
def ReceiveBinaryChunkHeader (s : BridgeState) (target method transferId : FStr)
    (totalSize totalChunks checksum : Nat) : BridgeState :=
  let t : FChunkedTransfer := ⟨target, method, totalSize, totalChunks, checksum, [], 0⟩
  { s with ActiveTransfers := mapAdd s.ActiveTransfers transferId t }

/-- Modelled from the spec: `ReceiveBinaryChunkData` — store the chunk at its
index (overwriting a duplicate), update the received count, and assemble when
`ReceivedChunks` reaches `TotalChunks`. A chunk for an unknown transfer is
ignored. -/
def ReceiveBinaryChunkData (s : BridgeState) (transferId : FStr) (index : Nat)
    (bytes : List Nat) : BridgeState × List REvent :=
  match mapFind s.ActiveTransfers transferId with
  | none => (s, [])
  | some t =>
    let chunks := mapAdd t.Chunks index bytes
    let t1 := { t with Chunks := chunks, ReceivedChunks := chunks.length }
    let s1 := { s with ActiveTransfers := mapAdd s.ActiveTransfers transferId t1 }
    if t1.ReceivedChunks = t1.TotalChunks then AssembleChunkedTransfer s1 transferId
    else (s1, [])

/-- Modelled from the spec: `ReceiveBinaryChunkFooter` — assemble the transfer
if it is present and complete; otherwise no effect. -/
def ReceiveBinaryChunkFooter (s : BridgeState) (transferId : FStr)
    (totalChunks checksum : Nat) : BridgeState × List REvent :=
  match mapFind s.ActiveTransfers transferId with
  | none => (s, [])
  | some t =>
    if t.ReceivedChunks = t.TotalChunks then AssembleChunkedTransfer s transferId
    else (s, [])

/-- Feed a list of `(index, bytes)` chunk frames into the bridge, collecting
the delivery events. -/
def ProcessChunks : BridgeState → FStr → List (Nat × List Nat) →
    BridgeState × List REvent
  | s, _, [] => (s, [])
  | s, transferId, f :: rest =>
    let r := ReceiveBinaryChunkData s transferId f.1 f.2
    let pr := ProcessChunks r.1 transferId rest
    (pr.1, r.2 ++ pr.2)

/-- A transfer after storing one chunk: the chunk stored at its index
(overwriting a duplicate), the received count refreshed. -/
def ChunkUpd (t : FChunkedTransfer) (i : Nat) (b : List Nat) :
    FChunkedTransfer :=
  { t with Chunks := mapAdd t.Chunks i b
           ReceivedChunks := (mapAdd t.Chunks i b).length }

/-! ## Quality settings (`FlutterBridge.cpp`, `ApplyQualitySettings`)

The engine's `Scalability` layer is external to the repository (the spec
treats the engine as an opaque "apply quality setting" sink), so applying a
setting is modelled as an emitted command. -/

/-- A quality-setting command sent to the engine sink. -/
inductive QualityCmd where
  | scalability (level : Int)
  | antiAliasing (q : Int)
  | shadow (q : Int)
  | postProcess (q : Int)
  | texture (q : Int)
  | effects (q : Int)
  | foliage (q : Int)
  | viewDistance (q : Int)
  deriving DecidableEq, Repr

/-- `ApplyQualitySettings`: each field is applied to the engine exactly when
it is non-negative, in the source's order. -/
def ApplyQualitySettings (qualityLevel antiAliasing shadow postProcess
    texture effects foliage viewDistance : Int) : List QualityCmd :=
  (if qualityLevel ≥ 0 then [QualityCmd.scalability qualityLevel] else []) ++
  (if antiAliasing ≥ 0 then [QualityCmd.antiAliasing antiAliasing] else []) ++
  (if shadow ≥ 0 then [QualityCmd.shadow shadow] else []) ++
  (if postProcess ≥ 0 then [QualityCmd.postProcess postProcess] else []) ++
  (if texture ≥ 0 then [QualityCmd.texture texture] else []) ++
  (if effects ≥ 0 then [QualityCmd.effects effects] else []) ++
  (if foliage ≥ 0 then [QualityCmd.foliage foliage] else []) ++
  (if viewDistance ≥ 0 then [QualityCmd.viewDistance viewDistance] else [])

/-- `ApplyQualitySettingsBP`: overall level only, every other field left at
the sentinel. -/
def ApplyQualitySettingsBP (qualityLevel : Int) : List QualityCmd :=
  ApplyQualitySettings qualityLevel (-1) (-1) (-1) (-1) (-1) (-1) (-1)

/-- Does a command target the anti-aliasing setting? (Similar discriminators
for the other fields.) -/
def QualityCmd.isAntiAliasing : QualityCmd → Bool
  | .antiAliasing _ => true
  | _ => false

def QualityCmd.isScalability : QualityCmd → Bool
  | .scalability _ => true
  | _ => false

def QualityCmd.isShadow : QualityCmd → Bool
  | .shadow _ => true
  | _ => false

def QualityCmd.isPostProcess : QualityCmd → Bool
  | .postProcess _ => true
  | _ => false

def QualityCmd.isTexture : QualityCmd → Bool
  | .texture _ => true
  | _ => false

def QualityCmd.isEffects : QualityCmd → Bool
  | .effects _ => true
  | _ => false

def QualityCmd.isFoliage : QualityCmd → Bool
  | .foliage _ => true
  | _ => false

def QualityCmd.isViewDistance : QualityCmd → Bool
  | .viewDistance _ => true
  | _ => false

/-! ## Derived notions used by the verification -/

/-- The registry context of a router state: everything except the message
queue and the traffic counters. Routing and flushing never change it. -/
structure RCtx where
  Targets : List (FStr × Nat)
  SingletonFlags : List (FStr × Bool)
  CachedDelegates : List (FStr × MDelegate)
  CachedBinaryDelegates : List (FStr × MDelegate)
  bQueueUnknownTargets : Bool
  MaxQueueSize : Nat
  statRegistered : Nat
  statCached : Nat
  deriving DecidableEq

/-- Project the registry context out of a router state. -/
def rctx (s : RouterState) : RCtx :=
  ⟨s.Targets, s.SingletonFlags, s.CachedDelegates, s.CachedBinaryDelegates,
   s.bQueueUnknownTargets, s.MaxQueueSize,
   s.Statistics.RegisteredTargets, s.Statistics.CachedDelegates⟩

/-- Is there a bound handler (in the cache matching the message kind) for a
queued message? -/
def MsgDeliverable (s : RouterState) (msg : FQueuedFlutterMessage) : Bool :=
  if msg.bIsBinary then
    (TryRouteBinaryCached s (GetCacheKey msg.Target msg.Method) msg.Method msg.BinaryData).1
  else
    (TryRouteCached s (GetCacheKey msg.Target msg.Method) msg.Method msg.Data).1

/-- The delegate executions caused by re-routing a queued message (empty when
no bound handler matches). -/
def MsgEvent (s : RouterState) (msg : FQueuedFlutterMessage) : List REvent :=
  if msg.bIsBinary then
    (TryRouteBinaryCached s (GetCacheKey msg.Target msg.Method) msg.Method msg.BinaryData).2
  else
    (TryRouteCached s (GetCacheKey msg.Target msg.Method) msg.Method msg.Data).2

/-- Does a flush keep this queued message (soft miss again)? -/
def MsgRequeued (s : RouterState) (msg : FQueuedFlutterMessage) : Bool :=
  !MsgDeliverable s msg && !(mapContains s.Targets msg.Target) &&
    s.bQueueUnknownTargets

/-- Queue entries produced by the router itself leave the payload field of
the other kind empty. -/
def MsgNormalized (msg : FQueuedFlutterMessage) : Prop :=
  (msg.bIsBinary = false → msg.BinaryData = []) ∧
  (msg.bIsBinary = true → msg.Data = [])

instance (msg : FQueuedFlutterMessage) : Decidable (MsgNormalized msg) := by
  unfold MsgNormalized
  infer_instance

/-- The statistics invariant of spec §3: the derived counters agree with the
authoritative structures. -/
def StatsConsistent (s : RouterState) : Prop :=
  s.Statistics.RegisteredTargets = s.Targets.length ∧
  s.Statistics.CachedDelegates
    = s.CachedDelegates.length + s.CachedBinaryDelegates.length ∧
  s.Statistics.QueuedMessages = s.MessageQueue.length

instance (s : RouterState) : Decidable (StatsConsistent s) := by
  unfold StatsConsistent
  infer_instance

/-- Route a sequence of text messages, keeping only the state. -/
def RouteAllText (s : RouterState) (ms : List (FStr × FStr × FStr)) :
    RouterState :=
  ms.foldl (fun st x => (RouteMessage st x.1 x.2.1 x.2.2).1) s

/-- The state a successful `RegisterTarget` builds just before it flushes
the queue: target and singleton flag inserted, target count refreshed. -/
def RegUpdate (s : RouterState) (name : FStr) (h : Nat) (flag : Bool) :
    RouterState :=
  { s with Targets := mapAdd s.Targets name h
           SingletonFlags := mapAdd s.SingletonFlags name flag
           Statistics := { s.Statistics with
              RegisteredTargets := (mapAdd s.Targets name h).length } }

/-! ## Concrete states used by the counterexamples and witnesses -/

/-- A queued text message addressed to target `a`. -/
def exMsgText : FQueuedFlutterMessage := ⟨"a".data, "b".data, "c".data, [], false⟩

/-- The initial router restricted to a queue capacity of 2. -/
def capTwoRouter : RouterState := { initialRouter with MaxQueueSize := 2 }

/-- The initial router restricted to a queue capacity of 1. -/
def capOneRouter : RouterState := { initialRouter with MaxQueueSize := 1 }

/-- A router whose queue is at its capacity of 1 (queuing enabled, no
targets, no handlers). -/
def fullQueueRouter : RouterState :=
  { initialRouter with
      MaxQueueSize := 1
      MessageQueue := [exMsgText]
      Statistics := ⟨0, 0, 0, 0, 1⟩ }

/-- A router in which name `X` is occupied by handle `1`, registered as a
singleton. -/
def singletonRouter : RouterState :=
  { initialRouter with
      Targets := [("X".data, 1)]
      SingletonFlags := [("X".data, true)]
      Statistics := ⟨0, 0, 1, 0, 0⟩ }

/-- A soft-missed text message for the unregistered target `B`. -/
def msgForB : FQueuedFlutterMessage := ⟨"B".data, "m".data, "d".data, [], false⟩

/-- A soft-missed text message for the unregistered target `C`. -/
def msgForC : FQueuedFlutterMessage := ⟨"C".data, "m".data, "e".data, [], false⟩

/-- A capacity-2 router whose queue holds soft-missed messages for the
unknown targets `B` and `C`. -/
def queuedBCRouter : RouterState :=
  { initialRouter with
      MaxQueueSize := 2
      MessageQueue := [msgForB, msgForC]
      Statistics := ⟨0, 0, 0, 0, 2⟩ }

/-- `queuedBCRouter` after additionally registering a bound handler for
`B:m`. -/
def queuedBCRouterH : RouterState :=
  RegisterMethod queuedBCRouter "B".data "m".data ⟨true, 9⟩

/-- A router where target `X` (handle 3) is registered with a bound text
handler for `X:m` (delegate id 4). -/
def c7state : RouterState :=
  RegisterMethod (RegisterTarget initialRouter "X".data (some 3) false).1
    "X".data "m".data ⟨true, 4⟩

/-- A router with a bound binary handler for `T:m` (delegate id 5). -/
def chunkRouter : RouterState :=
  { initialRouter with
      CachedBinaryDelegates := [(GetCacheKey "T".data "m".data, ⟨true, 5⟩)]
      Statistics := ⟨0, 0, 0, 1, 0⟩ }

/-- A bridge delivering into `chunkRouter`, with no active transfers. -/
def chunkBridge : BridgeState := ⟨chunkRouter, []⟩

/-- The three example chunks of the spec scenario (§8). -/
def exChunks : List (List Nat) := [[1, 2], [3], [4, 5]]

/-! ## Basic lemmas about the map model -/

theorem mapFind_mapAdd_self {κ α : Type} [DecidableEq κ]
    (l : List (κ × α)) (k : κ) (v : α) :
    mapFind (mapAdd l k v) k = some v := by
  induction l with
  | nil => simp [mapAdd, mapFind]
  | cons p rest ih =>
    by_cases h : p.1 = k
    · simp [mapAdd, h, mapFind]
    · simp [mapAdd, h, mapFind, ih]

theorem mapFind_mapAdd_of_ne {κ α : Type} [DecidableEq κ]
    (l : List (κ × α)) (k k' : κ) (v : α) (h : k' ≠ k) :
    mapFind (mapAdd l k v) k' = mapFind l k' := by
  have hk : ¬ k = k' := fun e => h e.symm
  induction l with
  | nil => simp [mapAdd, mapFind, hk]
  | cons p rest ih =>
    by_cases hp : p.1 = k
    · simp [mapAdd, hp, mapFind, hk]
    · by_cases hp' : p.1 = k'
      · simp [mapAdd, hp, mapFind, hp', h]
      · simp [mapAdd, hp, mapFind, hp', ih]

theorem length_mapAdd_of_not_contains {κ α : Type} [DecidableEq κ]
    (l : List (κ × α)) (k : κ) (v : α) (h : mapContains l k = false) :
    (mapAdd l k v).length = l.length + 1 := by
  induction l with
  | nil => simp [mapAdd]
  | cons p rest ih =>
    by_cases hp : p.1 = k
    · simp [mapContains, hp] at h
    · simp [mapContains, hp] at h
      simp [mapAdd, hp, ih h]

theorem mapContains_eq_isSome {κ α : Type} [DecidableEq κ]
    (l : List (κ × α)) (k : κ) :
    mapContains l k = (mapFind l k).isSome := by
  induction l with
  | nil => simp [mapContains, mapFind]
  | cons p rest ih =>
    by_cases hp : p.1 = k
    · simp [mapContains, mapFind, hp]
    · simp [mapContains, mapFind, hp, ih]

theorem mapFind_eq_none_of_not_contains {κ α : Type} [DecidableEq κ]
    {l : List (κ × α)} {k : κ} (h : mapContains l k = false) :
    mapFind l k = none := by
  rw [mapContains_eq_isSome] at h
  exact Option.not_isSome_iff_eq_none.mp (by simp [h])

theorem mapContains_mapRemove_self {κ α : Type} [DecidableEq κ]
    (l : List (κ × α)) (k : κ) :
    mapContains (mapRemove l k) k = false := by
  induction l with
  | nil => simp [mapRemove, mapContains]
  | cons p rest ih =>
    by_cases hp : p.1 = k
    · simpa [mapRemove, List.filter, hp] using ih
    · simpa [mapRemove, List.filter, hp, mapContains] using ih

theorem mapFind_filter_none {κ α : Type} [DecidableEq κ]
    (l : List (κ × α)) (k : κ) (f : κ × α → Bool)
    (h : ∀ v, f (k, v) = false) :
    mapFind (l.filter f) k = none := by
  induction l with
  | nil => simp [mapFind]
  | cons p rest ih =>
    by_cases hf : f p = true
    · have hp : p.1 ≠ k := by
        intro e
        have : f (k, p.2) = false := h p.2
        rw [← e] at this
        simp at this
        rw [this] at hf
        exact Bool.false_ne_true hf
      simpa [List.filter, hf, mapFind, hp] using ih
    · have hf' : f p = false := by
        cases hfp : f p
        · rfl
        · exact absurd hfp hf
      simpa [List.filter, hf'] using ih

theorem mapAdd_mapAdd_self {κ α : Type} [DecidableEq κ]
    (l : List (κ × α)) (k : κ) (v w : α) :
    mapAdd (mapAdd l k v) k w = mapAdd l k w := by
  induction l with
  | nil => simp [mapAdd]
  | cons p rest ih =>
    by_cases hp : p.1 = k
    · simp [mapAdd, hp]
    · simp [mapAdd, hp, ih]

theorem mapRemove_mapAdd_self {κ α : Type} [DecidableEq κ]
    (l : List (κ × α)) (k : κ) (v : α) :
    mapRemove (mapAdd l k v) k = mapRemove l k := by
  induction l with
  | nil => simp [mapAdd, mapRemove]
  | cons p rest ih =>
    by_cases hp : p.1 = k
    · simp [mapAdd, hp, mapRemove, List.filter]
    · simpa [mapAdd, hp, mapRemove, List.filter] using ih

theorem mapFind_mapRemove_self {κ α : Type} [DecidableEq κ]
    (l : List (κ × α)) (k : κ) :
    mapFind (mapRemove l k) k = none :=
  mapFind_eq_none_of_not_contains (mapContains_mapRemove_self l k)

theorem mapContains_mapAdd_of_ne {κ α : Type} [DecidableEq κ]
    (l : List (κ × α)) (k j : κ) (v : α) (h : j ≠ k) :
    mapContains (mapAdd l k v) j = mapContains l j := by
  rw [mapContains_eq_isSome, mapContains_eq_isSome,
    mapFind_mapAdd_of_ne l k j v h]

theorem mapContains_iff_mem_fst {κ α : Type} [DecidableEq κ]
    (l : List (κ × α)) (k : κ) :
    mapContains l k = true ↔ k ∈ l.map Prod.fst := by
  induction l with
  | nil => simp [mapContains]
  | cons p rest ih =>
    by_cases hp : p.1 = k
    · simp [mapContains, hp]
    · have hne : k ≠ p.1 := fun e => hp e.symm
      simp [mapContains, hp, ih, hne]

theorem mem_mapAdd_of_not_contains {κ α : Type} [DecidableEq κ]
    (l : List (κ × α)) (k : κ) (v : α) (h : mapContains l k = false)
    (p : κ × α) :
    p ∈ mapAdd l k v ↔ p = (k, v) ∨ p ∈ l := by
  induction l with
  | nil => simp [mapAdd]
  | cons q rest ih =>
    by_cases hq : q.1 = k
    · simp [mapContains, hq] at h
    · simp only [mapContains, hq, if_false] at h
      simp only [mapAdd, hq, if_false, List.mem_cons, ih h]
      tauto

theorem mapFst_mapAdd_of_not_contains {κ α : Type} [DecidableEq κ]
    (l : List (κ × α)) (k : κ) (v : α) (h : mapContains l k = false) :
    (mapAdd l k v).map Prod.fst = l.map Prod.fst ++ [k] := by
  induction l with
  | nil => simp [mapAdd]
  | cons q rest ih =>
    by_cases hq : q.1 = k
    · simp [mapContains, hq] at h
    · simp only [mapContains, hq, if_false] at h
      simp [mapAdd, hq, ih h]

theorem mapFind_eq_of_mem_nodup {κ α : Type} [DecidableEq κ]
    (l : List (κ × α)) (k : κ) (v : α) (hm : (k, v) ∈ l)
    (hn : (l.map Prod.fst).Nodup) :
    mapFind l k = some v := by
  induction l with
  | nil => simp at hm
  | cons p rest ih =>
    have hn2 : p.1 ∉ rest.map Prod.fst ∧ (rest.map Prod.fst).Nodup := by
      rw [List.map_cons] at hn
      exact ⟨(List.nodup_cons.mp hn).1, (List.nodup_cons.mp hn).2⟩
    rcases List.mem_cons.mp hm with he | ht
    · rw [← he]
      simp [mapFind]
    · have hk : k ∈ rest.map Prod.fst := by
        have h0 : (k, v).1 ∈ rest.map Prod.fst := List.mem_map_of_mem Prod.fst ht
        simpa using h0
      have hp : p.1 ≠ k := fun e => hn2.1 (e ▸ hk)
      simp only [mapFind, hp, if_false]
      exact ih ht hn2.2

theorem mem_of_nodup_full_range (l : List Nat) (n : Nat) (hn : l.Nodup)
    (hlen : l.length = n) (hlt : ∀ x ∈ l, x < n) :
    ∀ i, i < n → i ∈ l := by
  intro i hi
  have hsub : l.toFinset ⊆ Finset.range n := fun x hx =>
    Finset.mem_range.mpr (hlt x (List.mem_toFinset.mp hx))
  have hcard : (Finset.range n).card ≤ l.toFinset.card := by
    rw [List.toFinset_card_of_nodup hn, hlen, Finset.card_range]
  have heq := Finset.eq_of_subset_of_card_le hsub hcard
  have : i ∈ l.toFinset := by
    rw [heq]
    exact Finset.mem_range.mpr hi
  exact List.mem_toFinset.mp this

theorem isPrefixOf_append (p r : FStr) :
    p.isPrefixOf (p ++ r) = true := by
  induction p with
  | nil => simp [List.isPrefixOf]
  | cons c cs ih => simp [List.isPrefixOf, ih]

/-! ## Router dispatch machinery -/

theorem rctx_setQueue (s : RouterState) (q : List FQueuedFlutterMessage) :
    rctx { s with MessageQueue := q } = rctx s := rfl

theorem rctx_RouteMessage (s : RouterState) (t m d : FStr) :
    rctx (RouteMessage s t m d).1 = rctx s := by
  unfold RouteMessage QueueMessage
  rcases h1 : TryRouteCached s (GetCacheKey t m) m d with ⟨hit, hevs⟩
  cases hit <;> cases h2 : mapContains s.Targets t <;>
    cases h3 : s.bQueueUnknownTargets <;> simp [h1, h2, h3, rctx]

theorem rctx_RouteBinaryMessage (s : RouterState) (t m : FStr) (d : List Nat) :
    rctx (RouteBinaryMessage s t m d).1 = rctx s := by
  unfold RouteBinaryMessage
  rcases h1 : TryRouteBinaryCached s (GetCacheKey t m) m d with ⟨hit, hevs⟩
  cases hit <;> cases h2 : mapContains s.Targets t <;>
    cases h3 : s.bQueueUnknownTargets <;>
    by_cases h4 : s.MessageQueue.length < s.MaxQueueSize <;>
    simp [h1, h2, h3, h4, rctx]

theorem rctx_FlushStep (acc : RouterState × List REvent)
    (msg : FQueuedFlutterMessage) :
    rctx (FlushStep acc msg).1 = rctx acc.1 := by
  have hb : ∀ (r : RouterState × Bool × List REvent), rctx r.1 = rctx acc.1 →
      rctx ((if r.2.1 = true then (r.1, acc.2 ++ r.2.2)
        else if (r.1.bQueueUnknownTargets && !mapContains r.1.Targets msg.Target) = true
        then ({ r.1 with MessageQueue := r.1.MessageQueue ++ [msg] }, acc.2 ++ r.2.2)
        else (r.1, acc.2 ++ r.2.2))).1 = rctx acc.1 := by
    intro r h
    split
    · exact h
    · split
      · exact h
      · exact h
  unfold FlushStep
  dsimp only
  split
  · exact hb _ (rctx_RouteBinaryMessage acc.1 msg.Target msg.Method msg.BinaryData)
  · exact hb _ (rctx_RouteMessage acc.1 msg.Target msg.Method msg.Data)

theorem rctx_foldl_FlushStep (msgs : List FQueuedFlutterMessage)
    (acc : RouterState × List REvent) :
    rctx (msgs.foldl FlushStep acc).1 = rctx acc.1 := by
  induction msgs generalizing acc with
  | nil => rfl
  | cons msg rest ih => rw [List.foldl_cons, ih, rctx_FlushStep]

theorem rctx_FlushQueue (s : RouterState) :
    rctx (FlushQueue s).1 = rctx s := by
  unfold FlushQueue
  split
  · rfl
  · have h := rctx_foldl_FlushStep s.MessageQueue ({ s with MessageQueue := [] }, [])
    simpa [rctx] using h

/-- A delegate lookup miss produces no events (text cache). -/
theorem TryRouteCached_false_events (s : RouterState) (key m d : FStr)
    (h : (TryRouteCached s key m d).1 = false) :
    (TryRouteCached s key m d).2 = [] := by
  unfold TryRouteCached at *
  split at h
  · split at h
    · simp at h
    · simp_all
  · rfl

/-- A delegate lookup miss produces no events (binary cache). -/
theorem TryRouteBinaryCached_false_events (s : RouterState) (key m : FStr)
    (d : List Nat) (h : (TryRouteBinaryCached s key m d).1 = false) :
    (TryRouteBinaryCached s key m d).2 = [] := by
  unfold TryRouteBinaryCached at *
  split at h
  · split at h
    · simp at h
    · simp_all
  · rfl

theorem MsgDeliverable_congr {s s' : RouterState} (h : rctx s = rctx s')
    (msg : FQueuedFlutterMessage) :
    MsgDeliverable s msg = MsgDeliverable s' msg := by
  have hc : s.CachedDelegates = s'.CachedDelegates :=
    congrArg RCtx.CachedDelegates h
  have hb : s.CachedBinaryDelegates = s'.CachedBinaryDelegates :=
    congrArg RCtx.CachedBinaryDelegates h
  unfold MsgDeliverable TryRouteCached TryRouteBinaryCached
  rw [hc, hb]

theorem MsgEvent_caches {s s' : RouterState}
    (hc : s.CachedDelegates = s'.CachedDelegates)
    (hb : s.CachedBinaryDelegates = s'.CachedBinaryDelegates)
    (msg : FQueuedFlutterMessage) :
    MsgEvent s msg = MsgEvent s' msg := by
  unfold MsgEvent TryRouteCached TryRouteBinaryCached
  rw [hc, hb]

theorem MsgEvent_congr {s s' : RouterState} (h : rctx s = rctx s')
    (msg : FQueuedFlutterMessage) :
    MsgEvent s msg = MsgEvent s' msg :=
  MsgEvent_caches (congrArg RCtx.CachedDelegates h)
    (congrArg RCtx.CachedBinaryDelegates h) msg

theorem MsgRequeued_congr {s s' : RouterState} (h : rctx s = rctx s')
    (msg : FQueuedFlutterMessage) :
    MsgRequeued s msg = MsgRequeued s' msg := by
  have ht : s.Targets = s'.Targets := congrArg RCtx.Targets h
  have hq : s.bQueueUnknownTargets = s'.bQueueUnknownTargets :=
    congrArg RCtx.bQueueUnknownTargets h
  unfold MsgRequeued
  rw [MsgDeliverable_congr h, ht, hq]

/-- Effect of one flush iteration when the queue is below capacity: the
registry context is unchanged, a soft-missed entry is re-appended at the
tail, and a deliverable entry produces exactly its delegate execution. -/
theorem FlushStep_spec (st : RouterState) (evs : List REvent)
    (msg : FQueuedFlutterMessage)
    (hroom : st.MessageQueue.length < st.MaxQueueSize)
    (hnorm : MsgNormalized msg) :
    rctx (FlushStep (st, evs) msg).1 = rctx st ∧
    (FlushStep (st, evs) msg).1.MessageQueue
      = st.MessageQueue ++ (if MsgRequeued st msg then [msg] else []) ∧
    (FlushStep (st, evs) msg).2 = evs ++ MsgEvent st msg := by
  obtain ⟨tg, mth, dt, bd, bin⟩ := msg
  cases bin
  · have hbd : bd = [] := hnorm.1 rfl
    subst hbd
    unfold FlushStep MsgRequeued MsgDeliverable MsgEvent
    dsimp only
    unfold RouteMessage QueueMessage
    rcases h1 : TryRouteCached st (GetCacheKey tg mth) mth dt with ⟨hit, hevs⟩
    cases hit
    · have he : hevs = [] := by
        have h0 := TryRouteCached_false_events st (GetCacheKey tg mth) mth dt
          (by rw [h1])
        rw [h1] at h0
        exact h0
      subst he
      cases h2 : mapContains st.Targets tg
      · cases h3 : st.bQueueUnknownTargets
        · simp [h1, h2, h3, rctx]
        · have h4 : ¬ st.MessageQueue.length ≥ st.MaxQueueSize :=
            Nat.not_le.mpr hroom
          simp [h1, h2, h3, h4, rctx]
      · simp [h1, h2, rctx]
    · simp [h1, rctx]
  · have hdt : dt = [] := hnorm.2 rfl
    subst hdt
    unfold FlushStep MsgRequeued MsgDeliverable MsgEvent
    dsimp only
    unfold RouteBinaryMessage
    rcases h1 : TryRouteBinaryCached st (GetCacheKey tg mth) mth bd with ⟨hit, hevs⟩
    cases hit
    · have he : hevs = [] := by
        have h0 := TryRouteBinaryCached_false_events st (GetCacheKey tg mth) mth bd
          (by rw [h1])
        rw [h1] at h0
        exact h0
      subst he
      cases h2 : mapContains st.Targets tg
      · cases h3 : st.bQueueUnknownTargets
        · simp [h1, h2, h3, rctx]
        · simp [h1, h2, h3, hroom, rctx]
      · simp [h1, h2, rctx]
    · simp [h1, rctx]

/-- Effect of the whole flush loop, provided the queue stays below capacity
(which holds during any flush of a queue within its bound). -/
theorem FlushFold_spec (xs : List FQueuedFlutterMessage) (st : RouterState)
    (evs : List REvent) (hnorm : ∀ m ∈ xs, MsgNormalized m)
    (hlen : st.MessageQueue.length + xs.length ≤ st.MaxQueueSize) :
    rctx (xs.foldl FlushStep (st, evs)).1 = rctx st ∧
    (xs.foldl FlushStep (st, evs)).1.MessageQueue
      = st.MessageQueue ++ xs.filter (MsgRequeued st) ∧
    (xs.foldl FlushStep (st, evs)).2 = evs ++ (xs.map (MsgEvent st)).flatten := by
  induction xs generalizing st evs with
  | nil => simp
  | cons x rest ih =>
    have hroom : st.MessageQueue.length < st.MaxQueueSize := by
      simp only [List.length_cons] at hlen
      omega
    obtain ⟨hc, hq, he⟩ := FlushStep_spec st evs x hroom (hnorm x (by simp))
    have hmax : (FlushStep (st, evs) x).1.MaxQueueSize = st.MaxQueueSize :=
      congrArg RCtx.MaxQueueSize hc
    have hlen1 : (FlushStep (st, evs) x).1.MessageQueue.length + rest.length
        ≤ (FlushStep (st, evs) x).1.MaxQueueSize := by
      rw [hmax, hq]
      simp only [List.length_append, List.length_cons] at *
      split <;> simp <;> omega
    obtain ⟨ic, iq, ie⟩ := ih (FlushStep (st, evs) x).1 (FlushStep (st, evs) x).2
      (fun m hm => hnorm m (by simp [hm])) hlen1
    have hfold : (x :: rest).foldl FlushStep (st, evs)
        = rest.foldl FlushStep (FlushStep (st, evs) x) := by
      rw [List.foldl_cons]
    refine ⟨?_, ?_, ?_⟩
    · rw [hfold, ic, hc]
    · rw [hfold, iq, hq]
      have hfc : rest.filter (MsgRequeued (FlushStep (st, evs) x).1)
          = rest.filter (MsgRequeued st) := by
        apply List.filter_congr
        intro a _
        rw [MsgRequeued_congr hc]
      rw [hfc, List.filter_cons]
      by_cases hb : MsgRequeued st x
      · simp [hb, List.append_assoc]
      · simp [hb]
    · rw [hfold, ie, he]
      have hmc : rest.map (MsgEvent (FlushStep (st, evs) x).1)
          = rest.map (MsgEvent st) := by
        apply List.map_congr_left
        intro a _
        rw [MsgEvent_congr hc]
      rw [hmc]
      simp [List.append_assoc]

/-- `FlushQueue` characterized: the registry context is unchanged, the new
queue is exactly the soft-missed entries of the old queue in their original
order, and the emitted delegate executions are exactly those of the
deliverable entries, in queue order. -/
theorem FlushQueue_spec (s : RouterState)
    (hnorm : ∀ m ∈ s.MessageQueue, MsgNormalized m)
    (hlen : s.MessageQueue.length ≤ s.MaxQueueSize) :
    rctx (FlushQueue s).1 = rctx s ∧
    (FlushQueue s).1.MessageQueue = s.MessageQueue.filter (MsgRequeued s) ∧
    (FlushQueue s).2 = (s.MessageQueue.map (MsgEvent s)).flatten := by
  unfold FlushQueue
  by_cases h0 : s.MessageQueue.length = 0
  · have hq : s.MessageQueue = [] := List.length_eq_zero.mp h0
    simp [h0, hq]
  · have hc0 : rctx { s with MessageQueue := ([] : List FQueuedFlutterMessage) }
        = rctx s := rctx_setQueue s []
    obtain ⟨fc, fq, fe⟩ := FlushFold_spec s.MessageQueue
      { s with MessageQueue := [] } [] hnorm (by simpa using hlen)
    have hfc : s.MessageQueue.filter
        (MsgRequeued { s with MessageQueue := ([] : List FQueuedFlutterMessage) })
        = s.MessageQueue.filter (MsgRequeued s) := by
      apply List.filter_congr
      intro a _
      rw [MsgRequeued_congr hc0]
    have hme : s.MessageQueue.map
        (MsgEvent { s with MessageQueue := ([] : List FQueuedFlutterMessage) })
        = s.MessageQueue.map (MsgEvent s) := by
      apply List.map_congr_left
      intro a _
      rw [MsgEvent_congr hc0]
    rw [hfc] at fq
    rw [hme] at fe
    simp only [h0, if_false]
    refine ⟨?_, ?_, ?_⟩
    · exact fc.trans hc0
    · simpa using fq
    · simpa using fe

/-! ## Chunked-transfer machinery -/

/-- One step of `ProcessChunks`. -/
theorem ProcessChunks_cons (s : BridgeState) (tid : FStr) (f : Nat × List Nat)
    (rest : List (Nat × List Nat)) :
    ProcessChunks s tid (f :: rest)
      = ((ProcessChunks (ReceiveBinaryChunkData s tid f.1 f.2).1 tid rest).1,
         (ReceiveBinaryChunkData s tid f.1 f.2).2
           ++ (ProcessChunks (ReceiveBinaryChunkData s tid f.1 f.2).1 tid
               rest).2) := rfl

/-- A chunk frame for an unknown transfer id is ignored. -/
theorem ReceiveBinaryChunkData_none (s : BridgeState) (tid : FStr) (i : Nat)
    (b : List Nat) (hf : mapFind s.ActiveTransfers tid = none) :
    ReceiveBinaryChunkData s tid i b = (s, []) := by
  unfold ReceiveBinaryChunkData
  rw [hf]

/-- A chunk frame for a live transfer stores the chunk and assembles when
the count reaches the total. -/
theorem ReceiveBinaryChunkData_eq (s : BridgeState) (tid : FStr) (i : Nat)
    (b : List Nat) (t : FChunkedTransfer)
    (hf : mapFind s.ActiveTransfers tid = some t) :
    ReceiveBinaryChunkData s tid i b
      = (if (mapAdd t.Chunks i b).length = t.TotalChunks
         then AssembleChunkedTransfer
           { s with ActiveTransfers
               := mapAdd s.ActiveTransfers tid (ChunkUpd t i b) } tid
         else ({ s with ActiveTransfers
               := mapAdd s.ActiveTransfers tid (ChunkUpd t i b) }, [])) := by
  unfold ReceiveBinaryChunkData ChunkUpd
  rw [hf]

/-- After an assembly (successful or not), the transfer entry is gone. -/
theorem AssembleChunkedTransfer_deletes (s : BridgeState) (tid : FStr)
    (u : FChunkedTransfer)
    (hf : mapFind s.ActiveTransfers tid = some u) :
    mapFind (AssembleChunkedTransfer s tid).1.ActiveTransfers tid = none := by
  unfold AssembleChunkedTransfer
  rw [hf]
  dsimp only
  split
  · exact mapFind_mapRemove_self _ _
  · exact mapFind_mapRemove_self _ _

/-- When the chunk map is complete and correct, index-ordered reassembly
reproduces the original byte sequence. -/
theorem Reassemble_eq (cs : List (List Nat)) (m : List (Nat × List Nat))
    (hfind : ∀ i, (hi : i < cs.length) → mapFind m i = some (cs.get ⟨i, hi⟩)) :
    Reassemble m cs.length = cs.flatten := by
  unfold Reassemble
  congr 1
  apply List.ext_getElem
  · simp
  · intro n h1 h2
    have hn : n < cs.length := by simpa using h2
    simp only [List.getElem_map, List.getElem_range]
    rw [hfind n hn]
    rfl

/-- Running a complete set of chunk frames (distinct indices, any order,
correct bytes) against a transfer started for `cs.length` chunks ends with
the transfer entry removed; the payload is delivered through
`RouteBinaryMessage` exactly when the checksum matches, and nothing is
emitted otherwise. -/
theorem ProcessChunks_run (cs : List (List Nat)) (tid : FStr)
    (xs : List (Nat × List Nat)) :
    ∀ (s : BridgeState) (t : FChunkedTransfer),
    mapFind s.ActiveTransfers tid = some t →
    t.TotalChunks = cs.length →
    (∀ p ∈ t.Chunks, p.1 < cs.length ∧ cs[p.1]? = some p.2) →
    (t.Chunks.map Prod.fst).Nodup →
    (∀ x ∈ xs, x.1 < cs.length ∧ cs[x.1]? = some x.2) →
    (xs.map Prod.fst).Nodup →
    (∀ x ∈ xs, mapContains t.Chunks x.1 = false) →
    t.Chunks.length + xs.length = cs.length →
    xs ≠ [] →
    (ProcessChunks s tid xs).1.ActiveTransfers
      = mapRemove s.ActiveTransfers tid ∧
    (ProcessChunks s tid xs).1.router
      = (if CalculateCRC32 cs.flatten = t.ExpectedChecksum
         then (RouteBinaryMessage s.router t.Target t.Method cs.flatten).1
         else s.router) ∧
    (ProcessChunks s tid xs).2
      = (if CalculateCRC32 cs.flatten = t.ExpectedChecksum
         then (RouteBinaryMessage s.router t.Target t.Method cs.flatten).2.2
         else []) := by
  induction xs with
  | nil =>
    intro s t _ _ _ _ _ _ _ _ hne
    exact absurd rfl hne
  | cons x rest ih =>
    intro s t hfind htot hcorr hcn hxv hxn hdisj hcount _
    have hfresh : mapContains t.Chunks x.1 = false := hdisj x (by simp)
    have hlen1 : (mapAdd t.Chunks x.1 x.2).length = t.Chunks.length + 1 :=
      length_mapAdd_of_not_contains _ _ _ hfresh
    have hxfst : x.1 ∉ t.Chunks.map Prod.fst := by
      rw [← mapContains_iff_mem_fst]
      simp [hfresh]
    have hnodup1 : ((mapAdd t.Chunks x.1 x.2).map Prod.fst).Nodup := by
      rw [mapFst_mapAdd_of_not_contains _ _ _ hfresh]
      simp [List.nodup_append, hcn, hxfst]
    have hmem1 : ∀ p ∈ mapAdd t.Chunks x.1 x.2,
        p.1 < cs.length ∧ cs[p.1]? = some p.2 := by
      intro p hp
      rcases (mem_mapAdd_of_not_contains _ _ _ hfresh p).mp hp with he | hm
      · rw [he]
        exact hxv x (by simp)
      · exact hcorr p hm
    cases rest with
    | nil =>
      have hfull : (mapAdd t.Chunks x.1 x.2).length = t.TotalChunks := by
        simp only [List.length_cons, List.length_nil] at hcount
        omega
      have hlenfull : (mapAdd t.Chunks x.1 x.2).length = cs.length := by
        rw [hfull, htot]
      have hfindall : ∀ i, (hi : i < cs.length) →
          mapFind (mapAdd t.Chunks x.1 x.2) i = some (cs.get ⟨i, hi⟩) := by
        intro i hi
        have hifst : i ∈ (mapAdd t.Chunks x.1 x.2).map Prod.fst := by
          apply mem_of_nodup_full_range _ cs.length hnodup1
            (by rw [List.length_map, hlenfull]) _ i hi
          intro y hy
          rcases List.mem_map.mp hy with ⟨p, hp, hpe⟩
          rw [← hpe]
          exact (hmem1 p hp).1
        rcases List.mem_map.mp hifst with ⟨p, hp, hpe⟩
        have hpv := hmem1 p hp
        have h0 := hpv.2
        rw [hpe, List.getElem?_eq_getElem hi] at h0
        have hv : p.2 = cs.get ⟨i, hi⟩ := (Option.some_inj.mp h0).symm
        have hf := mapFind_eq_of_mem_nodup (mapAdd t.Chunks x.1 x.2) p.1 p.2
          (by simpa using hp) hnodup1
        rw [hpe] at hf
        rw [hf, hv]
      have hdata : Reassemble (mapAdd t.Chunks x.1 x.2) t.TotalChunks
          = cs.flatten := by
        rw [htot]
        exact Reassemble_eq cs _ hfindall
      have hstep : ReceiveBinaryChunkData s tid x.1 x.2
          = (if CalculateCRC32 cs.flatten = t.ExpectedChecksum
             then ((⟨(RouteBinaryMessage s.router t.Target t.Method
                 cs.flatten).1, mapRemove s.ActiveTransfers tid⟩ : BridgeState),
               (RouteBinaryMessage s.router t.Target t.Method cs.flatten).2.2)
             else ({ s with
                 ActiveTransfers := mapRemove s.ActiveTransfers tid }, [])) := by
        unfold ReceiveBinaryChunkData
        rw [hfind]
        dsimp only
        rw [if_pos hfull]
        unfold AssembleChunkedTransfer
        rw [mapFind_mapAdd_self]
        dsimp only
        rw [mapRemove_mapAdd_self, hdata]
      by_cases hcrc : CalculateCRC32 cs.flatten = t.ExpectedChecksum
      · rw [if_pos hcrc] at hstep
        refine ⟨?_, ?_, ?_⟩ <;> simp [ProcessChunks, hstep, hcrc]
      · rw [if_neg hcrc] at hstep
        refine ⟨?_, ?_, ?_⟩ <;> simp [ProcessChunks, hstep, hcrc]
    | cons y ys =>
      have hnotfull : ¬ (mapAdd t.Chunks x.1 x.2).length = t.TotalChunks := by
        simp only [List.length_cons] at hcount
        omega
      have hstep : ReceiveBinaryChunkData s tid x.1 x.2
          = ({ s with ActiveTransfers
                := mapAdd s.ActiveTransfers tid (ChunkUpd t x.1 x.2) }, []) := by
        unfold ReceiveBinaryChunkData ChunkUpd
        rw [hfind]
        dsimp only
        rw [if_neg hnotfull]
      have hxne : ∀ z ∈ y :: ys, z.1 ≠ x.1 := by
        intro z hz he
        have hx1 : x.1 ∉ (y :: ys).map Prod.fst :=
          (List.nodup_cons.mp (by simpa using hxn)).1
        exact hx1 (he ▸ List.mem_map_of_mem Prod.fst hz)
      have hres := ih
        { s with ActiveTransfers
            := mapAdd s.ActiveTransfers tid (ChunkUpd t x.1 x.2) }
        (ChunkUpd t x.1 x.2)
        (mapFind_mapAdd_self _ _ _)
        htot hmem1 hnodup1
        (fun z hz => hxv z (by simp [hz]))
        ((List.nodup_cons.mp (by simpa using hxn)).2)
        (by
          intro z hz
          simp only [ChunkUpd]
          rw [mapContains_mapAdd_of_ne _ _ _ _ (hxne z hz)]
          exact hdisj z (by simp [hz]))
        (by
          simp only [ChunkUpd]
          rw [hlen1]
          simp only [List.length_cons] at hcount ⊢
          omega)
        (by simp)
      refine ⟨?_, ?_, ?_⟩
      · rw [ProcessChunks_cons, hstep]
        dsimp only
        rw [hres.1]
        dsimp only
        rw [mapRemove_mapAdd_self]
      · rw [ProcessChunks_cons, hstep]
        dsimp only
        rw [hres.2.1]
        rfl
      · rw [ProcessChunks_cons, hstep]
        dsimp only
        rw [hres.2.2]
        rfl

/-! ## Claim C8 -/

/-- C8: when a bound handler is cached for `T:M`, `RouteMessage` invokes it
and returns true with `messages_routed` incremented and everything else (in
particular the queue) unchanged, even though `T` was never registered as a
target: dispatch consults the handler cache before the target registry. -/
theorem c8_cache_before_registry (s : RouterState) (t m d : FStr)
    (del : MDelegate)
    (hfind : mapFind s.CachedDelegates (GetCacheKey t m) = some del)
    (hbound : del.bound = true)
    (hunreg : mapContains s.Targets t = false) :
    RouteMessage s t m d =
      ({ s with Statistics := { s.Statistics with
          MessagesRouted := s.Statistics.MessagesRouted + 1 } },
       true, [REvent.textCall del.id m d]) := by
  unfold RouteMessage TryRouteCached
  simp [hfind, hbound]

/-- Witness for C8 at a concrete router: only `RegisterMethod` was called,
never `RegisterTarget`, and the message is delivered. -/
theorem c8_witness :
    (RouteMessage (RegisterMethod initialRouter "T".data "m".data ⟨true, 3⟩)
        "T".data "m".data "d".data).2
      = (true, [REvent.textCall 3 "m".data "d".data]) := by
  rw [c8_cache_before_registry
    (RegisterMethod initialRouter "T".data "m".data ⟨true, 3⟩)
    "T".data "m".data "d".data ⟨true, 3⟩ (by decide) rfl (by decide)]

/-! ## Claim C6 -/

/-- C6 counterexample: name `X` is occupied by handle 1 registered as a
singleton, yet a second `RegisterTarget` call with `bIsSingleton = false` is
not rejected: it overwrites the occupant (the resolved target becomes handle
2) and clears the singleton flag, because the collision check tests the new
call's flag, not the occupant's. -/
theorem c6_counterexample :
    mapFind singletonRouter.Targets "X".data = some 1 ∧
    mapFind singletonRouter.SingletonFlags "X".data = some true ∧
    mapFind (RegisterTarget singletonRouter "X".data (some 2) false).1.Targets
        "X".data = some 2 ∧
    mapFind (RegisterTarget singletonRouter "X".data (some 2) false).1.Targets
        "X".data ≠ some 1 ∧
    mapFind (RegisterTarget singletonRouter "X".data (some 2)
        false).1.SingletonFlags "X".data = some false := by
  refine ⟨rfl, rfl, rfl, ?_, rfl⟩
  decide

/-- C6 amended: while a name is occupied, a second `RegisterTarget` call
that itself passes `bIsSingleton = true` is rejected with no mutation, while
a second call passing `bIsSingleton = false` overwrites the occupant handle
and its singleton flag; `IsTargetRegistered` remains true throughout. -/
theorem c6_amended (s : RouterState) (name : FStr) (h0 h1 : Nat)
    (hocc : mapFind s.Targets name = some h0) :
    (RegisterTarget s name (some h1) true = (s, []) ∧
      IsTargetRegistered s name = true) ∧
    (mapFind (RegisterTarget s name (some h1) false).1.Targets name = some h1 ∧
      mapFind (RegisterTarget s name (some h1) false).1.SingletonFlags name
        = some false ∧
      IsTargetRegistered (RegisterTarget s name (some h1) false).1 name
        = true) := by
  have hcont : mapContains s.Targets name = true := by
    rw [mapContains_eq_isSome, hocc]
    rfl
  constructor
  · constructor
    · unfold RegisterTarget
      simp [hcont]
    · exact hcont
  · have hni : (true && mapContains s.Targets name) = true := by simp [hcont]
    unfold RegisterTarget
    simp only [Bool.false_and, Bool.false_eq_true, if_false]
    have hT : ∀ (s2 : RouterState), rctx (FlushQueue s2).1 = rctx s2 :=
      rctx_FlushQueue
    refine ⟨?_, ?_, ?_⟩
    · rw [show ∀ (s2 : RouterState), (FlushQueue s2).1.Targets = s2.Targets from
        fun s2 => congrArg RCtx.Targets (hT s2)]
      exact mapFind_mapAdd_self s.Targets name h1
    · rw [show ∀ (s2 : RouterState), (FlushQueue s2).1.SingletonFlags
          = s2.SingletonFlags from
        fun s2 => congrArg RCtx.SingletonFlags (hT s2)]
      exact mapFind_mapAdd_self s.SingletonFlags name false
    · unfold IsTargetRegistered
      rw [show ∀ (s2 : RouterState), (FlushQueue s2).1.Targets = s2.Targets from
        fun s2 => congrArg RCtx.Targets (hT s2)]
      rw [mapContains_eq_isSome, mapFind_mapAdd_self]
      rfl

/-- Witness for C6 amended at the concrete singleton router. -/
theorem c6_witness :
    (RegisterTarget singletonRouter "X".data (some 2) true
        = (singletonRouter, []) ∧
      IsTargetRegistered singletonRouter "X".data = true) ∧
    (mapFind (RegisterTarget singletonRouter "X".data (some 2)
        false).1.Targets "X".data = some 2 ∧
      mapFind (RegisterTarget singletonRouter "X".data (some 2)
        false).1.SingletonFlags "X".data = some false ∧
      IsTargetRegistered (RegisterTarget singletonRouter "X".data (some 2)
        false).1 "X".data = true) :=
  c6_amended singletonRouter "X".data 1 2 rfl

/-! ## Claim C7 -/

/-- C7: `UnregisterTarget` removes the target entry, its singleton flag and
every cached handler (text and binary) whose key is prefixed `name ++ ":"`,
so a subsequent `RouteMessage` to that name is a soft miss — queued (true
returned, entry appended at the tail) when queuing is enabled; unregistering
an absent name is a no-op. -/
theorem c7_unregister_purges (s : RouterState) (name : FStr)
    (hreg : mapContains s.Targets name = true) :
    (mapContains (UnregisterTarget s name).Targets name = false ∧
     mapContains (UnregisterTarget s name).SingletonFlags name = false) ∧
    (∀ rest : FStr,
      mapFind (UnregisterTarget s name).CachedDelegates (name ++ [':'] ++ rest)
        = none ∧
      mapFind (UnregisterTarget s name).CachedBinaryDelegates
        (name ++ [':'] ++ rest) = none) ∧
    (∀ m d : FStr, (UnregisterTarget s name).bQueueUnknownTargets = true →
      RouteMessage (UnregisterTarget s name) name m d
        = (QueueMessage (UnregisterTarget s name) name m d, true, []) ∧
      (RouteMessage (UnregisterTarget s name) name m d).1.MessageQueue
        = (if (UnregisterTarget s name).MessageQueue.length
              ≥ (UnregisterTarget s name).MaxQueueSize
           then (UnregisterTarget s name).MessageQueue.drop 1
           else (UnregisterTarget s name).MessageQueue)
          ++ [⟨name, m, d, [], false⟩]) ∧
    (∀ (s2 : RouterState) (name2 : FStr),
      mapContains s2.Targets name2 = false → UnregisterTarget s2 name2 = s2) := by
  have hkey : ∀ rest : FStr,
      ((name ++ [':']).isPrefixOf (name ++ [':'] ++ rest)) = true :=
    fun rest => isPrefixOf_append (name ++ [':']) rest
  have hcd : ∀ rest : FStr,
      mapFind (UnregisterTarget s name).CachedDelegates (name ++ [':'] ++ rest)
        = none := by
    intro rest
    unfold UnregisterTarget
    simp only [hreg, if_true]
    exact mapFind_filter_none s.CachedDelegates (name ++ [':'] ++ rest) _
      (fun v => by simp [hkey rest])
  have hcb : ∀ rest : FStr,
      mapFind (UnregisterTarget s name).CachedBinaryDelegates
        (name ++ [':'] ++ rest) = none := by
    intro rest
    unfold UnregisterTarget
    simp only [hreg, if_true]
    exact mapFind_filter_none s.CachedBinaryDelegates (name ++ [':'] ++ rest) _
      (fun v => by simp [hkey rest])
  have htg : mapContains (UnregisterTarget s name).Targets name = false := by
    unfold UnregisterTarget
    simp only [hreg, if_true]
    exact mapContains_mapRemove_self s.Targets name
  refine ⟨⟨htg, ?_⟩, fun rest => ⟨hcd rest, hcb rest⟩, ?_, ?_⟩
  · unfold UnregisterTarget
    simp only [hreg, if_true]
    exact mapContains_mapRemove_self s.SingletonFlags name
  · intro m d hq
    have hfc : (TryRouteCached (UnregisterTarget s name) (name ++ ':' :: m) m d)
        = (false, []) := by
      unfold TryRouteCached
      have h0 := hcd m
      simp only [List.append_assoc, List.singleton_append] at h0
      rw [h0]
    constructor
    · unfold RouteMessage GetCacheKey
      simp [hfc, htg, hq]
    · unfold RouteMessage GetCacheKey
      simp [hfc, htg, hq, QueueMessage]
  · intro s2 name2 h2
    unfold UnregisterTarget
    simp [h2]

/-- Witness for C7: register target `X` with a bound handler for `X:m`,
unregister it, and route to it again — the message is queued as a soft miss. -/
theorem c7_witness :
    (mapContains (UnregisterTarget c7state "X".data).Targets "X".data = false ∧
     mapContains (UnregisterTarget c7state "X".data).SingletonFlags "X".data
       = false) ∧
    (mapFind (UnregisterTarget c7state "X".data).CachedDelegates
        ("X".data ++ [':'] ++ "m".data) = none ∧
     mapFind (UnregisterTarget c7state "X".data).CachedBinaryDelegates
        ("X".data ++ [':'] ++ "m".data) = none) ∧
    RouteMessage (UnregisterTarget c7state "X".data) "X".data "m".data "d".data
      = (QueueMessage (UnregisterTarget c7state "X".data) "X".data "m".data
          "d".data, true, []) := by
  have h := c7_unregister_purges c7state "X".data (by decide)
  exact ⟨h.1, ⟨(h.2.1 "m".data).1, (h.2.1 "m".data).2⟩,
    ((h.2.2.1 "m".data "d".data (by decide)).1)⟩

/-! ## Claim C10 -/

/-- A conditional quality-command segment with a command of the wrong kind
filters to nothing. -/
theorem filter_qualityseg_none (p : QualityCmd → Bool) (c : Prop) [Decidable c]
    (x : QualityCmd) (hx : p x = false) :
    List.filter p (if c then [x] else []) = [] := by
  split <;> simp [hx]

/-- A conditional quality-command segment with a command of the matching kind
filters to itself. -/
theorem filter_qualityseg_keep (p : QualityCmd → Bool) (c : Prop) [Decidable c]
    (x : QualityCmd) (hx : p x = true) :
    List.filter p (if c then [x] else []) = if c then [x] else [] := by
  split <;> simp [hx]

/-- C10: in `ApplyQualitySettings`, the commands applied to the engine for
each quality field are exactly one command carrying the passed value when the
field is non-negative, and none at all when the field is negative — in
particular the sentinel `-1` leaves that engine setting untouched. -/
theorem c10_quality_sentinel (lv aa sh pp tx fx fo vd : Int) :
    ((ApplyQualitySettings lv aa sh pp tx fx fo vd).filter
        QualityCmd.isScalability
      = if lv ≥ 0 then [QualityCmd.scalability lv] else []) ∧
    ((ApplyQualitySettings lv aa sh pp tx fx fo vd).filter
        QualityCmd.isAntiAliasing
      = if aa ≥ 0 then [QualityCmd.antiAliasing aa] else []) ∧
    ((ApplyQualitySettings lv aa sh pp tx fx fo vd).filter QualityCmd.isShadow
      = if sh ≥ 0 then [QualityCmd.shadow sh] else []) ∧
    ((ApplyQualitySettings lv aa sh pp tx fx fo vd).filter
        QualityCmd.isPostProcess
      = if pp ≥ 0 then [QualityCmd.postProcess pp] else []) ∧
    ((ApplyQualitySettings lv aa sh pp tx fx fo vd).filter QualityCmd.isTexture
      = if tx ≥ 0 then [QualityCmd.texture tx] else []) ∧
    ((ApplyQualitySettings lv aa sh pp tx fx fo vd).filter QualityCmd.isEffects
      = if fx ≥ 0 then [QualityCmd.effects fx] else []) ∧
    ((ApplyQualitySettings lv aa sh pp tx fx fo vd).filter QualityCmd.isFoliage
      = if fo ≥ 0 then [QualityCmd.foliage fo] else []) ∧
    ((ApplyQualitySettings lv aa sh pp tx fx fo vd).filter
        QualityCmd.isViewDistance
      = if vd ≥ 0 then [QualityCmd.viewDistance vd] else []) := by
  unfold ApplyQualitySettings
  refine ⟨?_, ?_, ?_, ?_, ?_, ?_, ?_, ?_⟩ <;>
    simp [List.filter_append, filter_qualityseg_none, filter_qualityseg_keep,
      QualityCmd.isScalability, QualityCmd.isAntiAliasing, QualityCmd.isShadow,
      QualityCmd.isPostProcess, QualityCmd.isTexture, QualityCmd.isEffects,
      QualityCmd.isFoliage, QualityCmd.isViewDistance]

/-! ## Claim C1 -/

/-- C1 counterexample: `RouteBinaryMessage` on an unknown target with queuing
enabled but the queue already full returns `true` yet does **not** enqueue
the message — the queue is unchanged (no entry for target `T` appears) and
the message is counted as dropped, contradicting "the message is enqueued
and true is returned". -/
theorem c1_counterexample :
    mapContains fullQueueRouter.Targets "T".data = false ∧
    fullQueueRouter.bQueueUnknownTargets = true ∧
    (RouteBinaryMessage fullQueueRouter "T".data "m".data [9]).2.1 = true ∧
    (RouteBinaryMessage fullQueueRouter "T".data "m".data [9]).1.MessageQueue
      = fullQueueRouter.MessageQueue ∧
    (∀ msg ∈ (RouteBinaryMessage fullQueueRouter "T".data "m".data
        [9]).1.MessageQueue, ¬ msg.Target = "T".data) ∧
    (RouteBinaryMessage fullQueueRouter "T".data "m".data
        [9]).1.Statistics.MessagesDropped
      = fullQueueRouter.Statistics.MessagesDropped + 1 := by
  refine ⟨rfl, rfl, rfl, rfl, ?_, rfl⟩
  decide

/-- C1 amended: the three-way policy holds as stated for text messages and
for the cached-handler and hard-miss branches of binary messages; for a
binary soft miss with queuing enabled the message is enqueued at the tail
and `true` returned only while the queue has room — when the queue is full
the message is dropped (`messages_dropped` incremented, queue unchanged)
yet `true` is still returned. -/
theorem c1_amended (s : RouterState) (t m d : FStr) (bd : List Nat) :
    -- text: cached bound handler
    ((∀ del : MDelegate, mapFind s.CachedDelegates (GetCacheKey t m) = some del →
      del.bound = true →
      RouteMessage s t m d =
        ({ s with Statistics := { s.Statistics with
            MessagesRouted := s.Statistics.MessagesRouted + 1 } },
         true, [REvent.textCall del.id m d])) ∧
    -- text: hard miss (known target, no bound handler): dropped, queue unchanged
    ((TryRouteCached s (GetCacheKey t m) m d).1 = false →
      mapContains s.Targets t = true →
      RouteMessage s t m d =
        ({ s with Statistics := { s.Statistics with
            MessagesDropped := s.Statistics.MessagesDropped + 1 } },
         false, [])) ∧
    -- text: soft miss with queuing on: enqueued at tail, true
    ((TryRouteCached s (GetCacheKey t m) m d).1 = false →
      mapContains s.Targets t = false → s.bQueueUnknownTargets = true →
      (RouteMessage s t m d).2.1 = true ∧
      (RouteMessage s t m d).1.MessageQueue
        = (if s.MessageQueue.length ≥ s.MaxQueueSize
           then s.MessageQueue.drop 1 else s.MessageQueue)
          ++ [⟨t, m, d, [], false⟩]) ∧
    -- text: soft miss with queuing off: dropped, false
    ((TryRouteCached s (GetCacheKey t m) m d).1 = false →
      mapContains s.Targets t = false → s.bQueueUnknownTargets = false →
      RouteMessage s t m d =
        ({ s with Statistics := { s.Statistics with
            MessagesDropped := s.Statistics.MessagesDropped + 1 } },
         false, []))) ∧
    -- binary: cached bound handler
    ((∀ del : MDelegate,
      mapFind s.CachedBinaryDelegates (GetCacheKey t m) = some del →
      del.bound = true →
      RouteBinaryMessage s t m bd =
        ({ s with Statistics := { s.Statistics with
            MessagesRouted := s.Statistics.MessagesRouted + 1 } },
         true, [REvent.binCall del.id m bd])) ∧
    -- binary: hard miss
    ((TryRouteBinaryCached s (GetCacheKey t m) m bd).1 = false →
      mapContains s.Targets t = true →
      RouteBinaryMessage s t m bd =
        ({ s with Statistics := { s.Statistics with
            MessagesDropped := s.Statistics.MessagesDropped + 1 } },
         false, [])) ∧
    -- binary: soft miss, queuing on, queue has room: enqueued at tail, true
    ((TryRouteBinaryCached s (GetCacheKey t m) m bd).1 = false →
      mapContains s.Targets t = false → s.bQueueUnknownTargets = true →
      s.MessageQueue.length < s.MaxQueueSize →
      (RouteBinaryMessage s t m bd).2.1 = true ∧
      (RouteBinaryMessage s t m bd).1.MessageQueue
        = s.MessageQueue ++ [⟨t, m, [], bd, true⟩]) ∧
    -- binary: soft miss, queuing on, queue full: dropped but still true
    ((TryRouteBinaryCached s (GetCacheKey t m) m bd).1 = false →
      mapContains s.Targets t = false → s.bQueueUnknownTargets = true →
      ¬ s.MessageQueue.length < s.MaxQueueSize →
      RouteBinaryMessage s t m bd =
        ({ s with Statistics := { s.Statistics with
            MessagesDropped := s.Statistics.MessagesDropped + 1 } },
         true, [])) ∧
    -- binary: soft miss with queuing off: dropped, false
    ((TryRouteBinaryCached s (GetCacheKey t m) m bd).1 = false →
      mapContains s.Targets t = false → s.bQueueUnknownTargets = false →
      RouteBinaryMessage s t m bd =
        ({ s with Statistics := { s.Statistics with
            MessagesDropped := s.Statistics.MessagesDropped + 1 } },
         false, []))) := by
  refine ⟨⟨?_, ?_, ?_, ?_⟩, ⟨?_, ?_, ?_, ?_, ?_⟩⟩
  · intro del hfind hbound
    unfold RouteMessage TryRouteCached
    simp [hfind, hbound]
  · intro h1 h2
    unfold RouteMessage
    simp [h1, h2]
  · intro h1 h2 h3
    unfold RouteMessage QueueMessage
    simp [h1, h2, h3]
  · intro h1 h2 h3
    unfold RouteMessage
    simp [h1, h2, h3]
  · intro del hfind hbound
    unfold RouteBinaryMessage TryRouteBinaryCached
    simp [hfind, hbound]
  · intro h1 h2
    unfold RouteBinaryMessage
    simp [h1, h2]
  · intro h1 h2 h3 h4
    unfold RouteBinaryMessage
    simp [h1, h2, h3, h4]
  · intro h1 h2 h3 h4
    unfold RouteBinaryMessage
    simp [h1, h2, h3, h4]
  · intro h1 h2 h3
    unfold RouteBinaryMessage
    simp [h1, h2, h3]

/-- Witness for C1 amended: the binary full-queue branch evaluated at the
concrete full router, and the text soft-miss branch at the initial router. -/
theorem c1_witness :
    RouteBinaryMessage fullQueueRouter "T".data "m".data [9]
      = ({ fullQueueRouter with Statistics := { fullQueueRouter.Statistics with
          MessagesDropped := fullQueueRouter.Statistics.MessagesDropped + 1 } },
         true, []) ∧
    (RouteMessage initialRouter "T".data "m".data "d".data).1.MessageQueue
      = [⟨"T".data, "m".data, "d".data, [], false⟩] := by
  constructor
  · exact (c1_amended fullQueueRouter "T".data "m".data "d".data [9]).2.2.2.2.1
      rfl rfl rfl (by decide)
  · have h := ((c1_amended initialRouter "T".data "m".data "d".data
      []).1.2.2.1 rfl rfl rfl).2
    rw [h]
    decide

/-! ## Claim C2 -/

/-- Routing a sequence of soft-missed text messages into a router with no
targets and no handlers keeps exactly the most recent `MaxQueueSize` of
them: the queue equals the tail of all enqueued entries past capacity. -/
theorem RouteAllText_queue (ms : List (FStr × FStr × FStr)) (s : RouterState)
    (hT : s.Targets = []) (hC : s.CachedDelegates = [])
    (hq : s.bQueueUnknownTargets = true)
    (hle : s.MessageQueue.length ≤ s.MaxQueueSize)
    (hpos : 1 ≤ s.MaxQueueSize) :
    (RouteAllText s ms).MessageQueue
      = (s.MessageQueue ++ ms.map
          (fun x => (⟨x.1, x.2.1, x.2.2, [], false⟩ : FQueuedFlutterMessage))).drop
        ((s.MessageQueue.length + ms.length) - s.MaxQueueSize) := by
  induction ms generalizing s with
  | nil =>
    have h0 : s.MessageQueue.length - s.MaxQueueSize = 0 :=
      Nat.sub_eq_zero_of_le hle
    simp [RouteAllText, h0]
  | cons x rest ih =>
    have hs1 : (RouteMessage s x.1 x.2.1 x.2.2).1
        = QueueMessage s x.1 x.2.1 x.2.2 := by
      unfold RouteMessage TryRouteCached
      simp [hC, hT, hq, mapFind, mapContains]
    have hstep : RouteAllText s (x :: rest)
        = RouteAllText (QueueMessage s x.1 x.2.1 x.2.2) rest := by
      unfold RouteAllText
      rw [List.foldl_cons, hs1]
    rw [hstep]
    have hmax : (QueueMessage s x.1 x.2.1 x.2.2).MaxQueueSize
        = s.MaxQueueSize := by simp [QueueMessage]
    by_cases hfull : s.MessageQueue.length ≥ s.MaxQueueSize
    · have hlen : s.MessageQueue.length = s.MaxQueueSize := le_antisymm hle hfull
      have hq1 : (QueueMessage s x.1 x.2.1 x.2.2).MessageQueue
          = s.MessageQueue.drop 1
            ++ [(⟨x.1, x.2.1, x.2.2, [], false⟩ : FQueuedFlutterMessage)] := by
        unfold QueueMessage
        simp [hfull]
      have hlen1 : (QueueMessage s x.1 x.2.1 x.2.2).MessageQueue.length
          = s.MaxQueueSize := by
        rw [hq1]
        simp [List.length_drop]
        omega
      have hres := ih (QueueMessage s x.1 x.2.1 x.2.2)
        (by simpa [QueueMessage] using hT) (by simpa [QueueMessage] using hC)
        (by simpa [QueueMessage] using hq)
        (by rw [hlen1, hmax]) (by rw [hmax]; exact hpos)
      rw [hres, hmax, hlen1, hq1]
      simp only [List.map_cons, List.length_cons]
      rw [List.append_assoc, List.singleton_append,
        ← List.drop_append_of_le_length (by omega : 1 ≤ s.MessageQueue.length),
        List.drop_drop]
      congr 1
      omega
    · have hq1 : (QueueMessage s x.1 x.2.1 x.2.2).MessageQueue
          = s.MessageQueue
            ++ [(⟨x.1, x.2.1, x.2.2, [], false⟩ : FQueuedFlutterMessage)] := by
        unfold QueueMessage
        simp [hfull]
      have hlen1 : (QueueMessage s x.1 x.2.1 x.2.2).MessageQueue.length
          = s.MessageQueue.length + 1 := by
        rw [hq1]
        simp
      have hres := ih (QueueMessage s x.1 x.2.1 x.2.2)
        (by simpa [QueueMessage] using hT) (by simpa [QueueMessage] using hC)
        (by simpa [QueueMessage] using hq)
        (by rw [hlen1, hmax]; omega) (by rw [hmax]; exact hpos)
      rw [hres, hmax, hlen1, hq1]
      simp only [List.map_cons, List.length_cons]
      rw [List.append_assoc, List.singleton_append]
      congr 1
      omega

/-- C2 counterexample: a binary soft miss against a full queue does not
evict the oldest entry and insert the new message at the tail — the queue is
left exactly as it was (still holding the old message for target `a`), the
incoming message is dropped, and no entry for target `T` appears. -/
theorem c2_counterexample :
    fullQueueRouter.MessageQueue.length = fullQueueRouter.MaxQueueSize ∧
    mapContains fullQueueRouter.Targets "T".data = false ∧
    fullQueueRouter.bQueueUnknownTargets = true ∧
    (RouteBinaryMessage fullQueueRouter "T".data "m".data [9]).1.MessageQueue
      = [exMsgText] ∧
    ¬ (RouteBinaryMessage fullQueueRouter "T".data "m".data [9]).1.MessageQueue
      = [⟨"T".data, "m".data, [], [9], true⟩] := by
  refine ⟨rfl, rfl, rfl, rfl, ?_⟩
  decide

/-- C2 amended: the drop-oldest bounded-queue policy holds for text
messages — routing `N+1` soft-missed text messages into an empty queue of
capacity `N` leaves exactly the `N` most recent — while a binary soft miss
against a full queue instead drops the incoming message (counted in
`messages_dropped`, queue unchanged) while still returning `true`. -/
theorem c2_amended (N : Nat) (hN : 1 ≤ N) (ms : List (FStr × FStr × FStr))
    (hms : ms.length = N + 1) (s : RouterState)
    (hT : s.Targets = []) (hC : s.CachedDelegates = [])
    (hq : s.bQueueUnknownTargets = true) (hqu : s.MessageQueue = [])
    (hmax : s.MaxQueueSize = N) :
    ((RouteAllText s ms).MessageQueue
      = (ms.map
          (fun x => (⟨x.1, x.2.1, x.2.2, [], false⟩ : FQueuedFlutterMessage))).drop 1 ∧
     (RouteAllText s ms).MessageQueue.length = N) ∧
    (∀ (s' : RouterState) (t m : FStr) (bd : List Nat),
      (TryRouteBinaryCached s' (GetCacheKey t m) m bd).1 = false →
      mapContains s'.Targets t = false →
      s'.bQueueUnknownTargets = true →
      s'.MessageQueue.length ≥ s'.MaxQueueSize →
      (RouteBinaryMessage s' t m bd).1.MessageQueue = s'.MessageQueue ∧
      (RouteBinaryMessage s' t m bd).2.1 = true ∧
      (RouteBinaryMessage s' t m bd).1.Statistics.MessagesDropped
        = s'.Statistics.MessagesDropped + 1) := by
  constructor
  · have h := RouteAllText_queue ms s hT hC hq (by simp [hqu]) (by omega)
    rw [hqu, hmax] at h
    simp only [List.nil_append, List.length_nil, Nat.zero_add] at h
    rw [hms] at h
    have harith : N + 1 - N = 1 := by omega
    rw [harith] at h
    constructor
    · exact h
    · rw [h]
      simp [List.length_drop, hms]
  · intro s' t m bd h1 h2 h3 h4
    have hnl : ¬ s'.MessageQueue.length < s'.MaxQueueSize := by omega
    refine ⟨?_, ?_, ?_⟩ <;>
    · unfold RouteBinaryMessage
      simp [h1, h2, h3, hnl]

/-- Witness for C2 amended: three messages through a capacity-2 empty
router keep the two most recent, and the binary overflow case at the
concrete full router. -/
theorem c2_witness :
    ((RouteAllText capTwoRouter
        [("A".data, "m".data, "x".data), ("B".data, "m".data, "y".data),
         ("C".data, "m".data, "z".data)]).MessageQueue
      = [⟨"B".data, "m".data, "y".data, [], false⟩,
         ⟨"C".data, "m".data, "z".data, [], false⟩] ∧
     (RouteBinaryMessage fullQueueRouter "T".data "m".data [9]).1.MessageQueue
      = fullQueueRouter.MessageQueue) := by
  constructor
  · have h := ((c2_amended 2 (by decide)
      [("A".data, "m".data, "x".data), ("B".data, "m".data, "y".data),
       ("C".data, "m".data, "z".data)] rfl capTwoRouter rfl rfl rfl rfl
      rfl).1).1
    rw [h]
    decide
  · exact ((c2_amended 1 (by decide) [("A".data, "m".data, "x".data),
      ("B".data, "m".data, "y".data)] rfl capOneRouter rfl rfl rfl rfl
      rfl).2 fullQueueRouter "T".data "m".data [9] rfl rfl rfl
      (by decide)).1

/-! ## Claim C4 -/

/-- C4: `FlushQueue` snapshots the queue, clears it, and re-attempts routing
for every snapshotted entry in original order: afterwards the queue holds
exactly the entries whose target is still unknown (re-queued at the tail, in
order, when queuing is enabled), entries with a known target but no matching
handler are dropped, deliverable entries produce exactly their delegate
executions in order, and a successful `RegisterTarget` performs exactly this
flush on the updated registry. -/
theorem c4_flush_policy (s : RouterState) (name : FStr) (h0 : Nat)
    (flag : Bool)
    (hnorm : ∀ m ∈ s.MessageQueue, MsgNormalized m)
    (hlen : s.MessageQueue.length ≤ s.MaxQueueSize) :
    (rctx (FlushQueue s).1 = rctx s ∧
     (FlushQueue s).1.MessageQueue = s.MessageQueue.filter (MsgRequeued s) ∧
     (FlushQueue s).2 = (s.MessageQueue.map (MsgEvent s)).flatten) ∧
    (¬ (flag = true ∧ mapContains s.Targets name = true) →
      (RegisterTarget s name (some h0) flag).1.MessageQueue
        = s.MessageQueue.filter (MsgRequeued (RegUpdate s name h0 flag)) ∧
      (RegisterTarget s name (some h0) flag).2
        = (s.MessageQueue.map (MsgEvent (RegUpdate s name h0 flag))).flatten) := by
  constructor
  · exact FlushQueue_spec s hnorm hlen
  · intro hcond
    have hb : ¬ ((flag && mapContains s.Targets name) = true) := by
      intro hh
      exact hcond (Bool.and_eq_true _ _ ▸ hh)
    have hreg : RegisterTarget s name (some h0) flag
        = FlushQueue (RegUpdate s name h0 flag) := by
      unfold RegisterTarget
      dsimp only
      rw [if_neg hb]
      rfl
    obtain ⟨_, hq, he⟩ := FlushQueue_spec (RegUpdate s name h0 flag) hnorm hlen
    rw [hreg]
    exact ⟨hq, he⟩

/-- Witness for C4: registering target `B` (handle 7) on the capacity-2
router whose queue holds soft-missed messages for `B` and `C`, with a bound
handler registered for `B:m`, flushes the queue: the `B` entry is delivered
and the still-unknown `C` entry is re-queued. -/
theorem c4_witness :
    (RegisterTarget queuedBCRouterH "B".data (some 7) false).1.MessageQueue
      = [msgForC] ∧
    (RegisterTarget queuedBCRouterH "B".data (some 7) false).2
      = [REvent.textCall 9 "m".data "d".data] := by
  have h := (c4_flush_policy queuedBCRouterH "B".data 7 false (by decide)
    (by decide)).2 (by decide)
  constructor
  · rw [h.1]
    decide
  · rw [h.2]
    decide

/-! ## Claim C5 -/

/-- C5 counterexample: the queue of a capacity-2 router holds a soft-missed
message addressed to `B`; registering target `B` flushes the queue but
delivers nothing — there is no handler for `B:m`, so the entry is dropped as
a hard miss rather than delivered, contradicting "FlushQueue delivers all
still-queued entries addressed to that target". -/
theorem c5_counterexample :
    msgForB ∈ queuedBCRouter.MessageQueue ∧
    msgForB.Target = "B".data ∧
    (RegisterTarget queuedBCRouter "B".data (some 7) false).2 = [] ∧
    (RegisterTarget queuedBCRouter "B".data (some 7) false).1.MessageQueue
      = [msgForC] := by
  refine ⟨by decide, rfl, ?_, ?_⟩ <;> decide

/-- C5 amended: after registering a target for which messages were
soft-missed and queued, the flush delivers — in original enqueue order —
exactly the delegate executions of the queued entries that now have a bound
matching handler; every entry addressed to the newly registered name leaves
the queue (delivered when a handler matches, dropped as a hard miss
otherwise). -/
theorem c5_amended (s : RouterState) (name : FStr) (h0 : Nat) (flag : Bool)
    (hnorm : ∀ m ∈ s.MessageQueue, MsgNormalized m)
    (hlen : s.MessageQueue.length ≤ s.MaxQueueSize)
    (hcond : ¬ (flag = true ∧ mapContains s.Targets name = true)) :
    (RegisterTarget s name (some h0) flag).2
      = (s.MessageQueue.map (MsgEvent s)).flatten ∧
    (∀ msg ∈ (RegisterTarget s name (some h0) flag).1.MessageQueue,
      ¬ msg.Target = name) ∧
    (∀ msg ∈ s.MessageQueue, ∀ e ∈ MsgEvent s msg,
      e ∈ (RegisterTarget s name (some h0) flag).2) := by
  have hb : ¬ ((flag && mapContains s.Targets name) = true) := by
    intro hh
    exact hcond (Bool.and_eq_true _ _ ▸ hh)
  have hreg : RegisterTarget s name (some h0) flag
      = FlushQueue (RegUpdate s name h0 flag) := by
    unfold RegisterTarget
    dsimp only
    rw [if_neg hb]
    rfl
  obtain ⟨_, hq, he⟩ := FlushQueue_spec (RegUpdate s name h0 flag) hnorm hlen
  have hev : s.MessageQueue.map (MsgEvent (RegUpdate s name h0 flag))
      = s.MessageQueue.map (MsgEvent s) :=
    List.map_congr_left (fun a _ => MsgEvent_caches rfl rfl a)
  have hevents : (RegisterTarget s name (some h0) flag).2
      = (s.MessageQueue.map (MsgEvent s)).flatten := by
    rw [hreg, he]
    show (List.map (MsgEvent (RegUpdate s name h0 flag)) s.MessageQueue).flatten
      = _
    rw [hev]
  refine ⟨hevents, ?_, ?_⟩
  · intro msg hmsg
    rw [hreg, hq] at hmsg
    have hr : MsgRequeued (RegUpdate s name h0 flag) msg = true :=
      List.of_mem_filter hmsg
    intro he2
    have hcont : mapContains (RegUpdate s name h0 flag).Targets msg.Target
        = false := by
      unfold MsgRequeued at hr
      rcases Bool.and_eq_true _ _ ▸ hr with ⟨hr1, _⟩
      rcases Bool.and_eq_true _ _ ▸ hr1 with ⟨_, hr2⟩
      simpa using hr2
    rw [he2] at hcont
    have : mapContains (mapAdd s.Targets name h0) name = true := by
      rw [mapContains_eq_isSome, mapFind_mapAdd_self]
      rfl
    rw [show (RegUpdate s name h0 flag).Targets = mapAdd s.Targets name h0
      from rfl] at hcont
    rw [this] at hcont
    exact Bool.noConfusion hcont
  · intro msg hmsg e hev2
    rw [hevents]
    exact List.mem_flatten.mpr ⟨MsgEvent s msg, List.mem_map_of_mem _ hmsg, hev2⟩

/-- Witness for C5 amended: with a bound handler for `B:m` registered,
registering target `B` delivers the queued `B` message and no entry for `B`
remains queued. -/
theorem c5_witness :
    (RegisterTarget queuedBCRouterH "B".data (some 7) false).2
      = [REvent.textCall 9 "m".data "d".data] ∧
    ∀ msg ∈ (RegisterTarget queuedBCRouterH "B".data (some 7)
        false).1.MessageQueue, ¬ msg.Target = "B".data := by
  have h := c5_amended queuedBCRouterH "B".data 7 false (by decide) (by decide)
    (by decide)
  refine ⟨?_, h.2.1⟩
  rw [h.1]
  decide

/-! ## Claim C9 -/

/-- Flushing preserves the statistics invariant: routing inside the loop
never touches the registry counters, and the queued-message counter is
refreshed from the queue at the end. -/
theorem StatsConsistent_FlushQueue (s : RouterState) (hs : StatsConsistent s) :
    StatsConsistent (FlushQueue s).1 := by
  obtain ⟨h1, h2, h3⟩ := hs
  unfold FlushQueue
  by_cases h0 : s.MessageQueue.length = 0
  · simp only [h0, if_true]
    exact ⟨h1, h2, h3⟩
  · simp only [h0, if_false]
    have hc := rctx_foldl_FlushStep s.MessageQueue
      ({ s with MessageQueue := [] }, [])
    have hT : (s.MessageQueue.foldl FlushStep
        ({ s with MessageQueue := [] }, [])).1.Targets = s.Targets :=
      congrArg RCtx.Targets hc
    have hR : (s.MessageQueue.foldl FlushStep
        ({ s with MessageQueue := [] }, [])).1.Statistics.RegisteredTargets
        = s.Statistics.RegisteredTargets :=
      congrArg RCtx.statRegistered hc
    have hCd : (s.MessageQueue.foldl FlushStep
        ({ s with MessageQueue := [] }, [])).1.CachedDelegates
        = s.CachedDelegates :=
      congrArg RCtx.CachedDelegates hc
    have hCb : (s.MessageQueue.foldl FlushStep
        ({ s with MessageQueue := [] }, [])).1.CachedBinaryDelegates
        = s.CachedBinaryDelegates :=
      congrArg RCtx.CachedBinaryDelegates hc
    have hC : (s.MessageQueue.foldl FlushStep
        ({ s with MessageQueue := [] }, [])).1.Statistics.CachedDelegates
        = s.Statistics.CachedDelegates :=
      congrArg RCtx.statCached hc
    refine ⟨?_, ?_, rfl⟩
    · show (s.MessageQueue.foldl FlushStep
          ({ s with MessageQueue := [] }, [])).1.Statistics.RegisteredTargets
        = (s.MessageQueue.foldl FlushStep
          ({ s with MessageQueue := [] }, [])).1.Targets.length
      rw [hR, hT, h1]
    · show (s.MessageQueue.foldl FlushStep
          ({ s with MessageQueue := [] }, [])).1.Statistics.CachedDelegates
        = (s.MessageQueue.foldl FlushStep
            ({ s with MessageQueue := [] }, [])).1.CachedDelegates.length
          + (s.MessageQueue.foldl FlushStep
            ({ s with MessageQueue := [] }, [])).1.CachedBinaryDelegates.length
      rw [hC, hCd, hCb, h2]

/-- C9: every public router operation re-establishes the statistics
invariant — the registered-target counter equals the size of the target map,
the cached-delegate counter equals the combined size of the two handler
caches, and the queued-message counter equals the queue length. -/
theorem c9_statistics_invariant (s : RouterState) (hs : StatsConsistent s) :
    (∀ (name : FStr) (target : Option Nat) (flag : Bool),
      StatsConsistent (RegisterTarget s name target flag).1) ∧
    (∀ name : FStr, StatsConsistent (UnregisterTarget s name)) ∧
    (∀ (t m : FStr) (del : MDelegate),
      StatsConsistent (RegisterMethod s t m del)) ∧
    (∀ (t m : FStr) (del : MDelegate),
      StatsConsistent (RegisterBinaryMethod s t m del)) ∧
    (∀ t m : FStr, StatsConsistent (UnregisterMethod s t m)) ∧
    (∀ t m d : FStr, StatsConsistent (RouteMessage s t m d).1) ∧
    (∀ (t m : FStr) (bd : List Nat),
      StatsConsistent (RouteBinaryMessage s t m bd).1) ∧
    (∀ t m d : FStr, StatsConsistent (QueueMessage s t m d)) ∧
    StatsConsistent (FlushQueue s).1 ∧
    StatsConsistent (ClearQueue s) ∧
    (∀ n : Int, StatsConsistent (SetMaxQueueSize s n)) ∧
    StatsConsistent (ResetStatistics s) := by
  obtain ⟨h1, h2, h3⟩ := hs
  refine ⟨?_, ?_, ?_, ?_, ?_, ?_, ?_, ?_, ?_, ?_, ?_, ?_⟩
  · intro name target flag
    cases target with
    | none => exact ⟨h1, h2, h3⟩
    | some h =>
      unfold RegisterTarget
      dsimp only
      by_cases hcol : (flag && mapContains s.Targets name) = true
      · rw [if_pos hcol]
        exact ⟨h1, h2, h3⟩
      · rw [if_neg hcol]
        exact StatsConsistent_FlushQueue _ ⟨rfl, h2, h3⟩
  · intro name
    unfold UnregisterTarget
    by_cases hc : mapContains s.Targets name = true
    · simp only [hc, if_true]
      exact ⟨rfl, rfl, h3⟩
    · simp only [hc, if_false]
      exact ⟨h1, h2, h3⟩
  · intro t m del
    exact ⟨h1, rfl, h3⟩
  · intro t m del
    exact ⟨h1, rfl, h3⟩
  · intro t m
    exact ⟨h1, rfl, h3⟩
  · intro t m d
    unfold RouteMessage QueueMessage
    rcases hr : TryRouteCached s (GetCacheKey t m) m d with ⟨hit, hevs⟩
    cases hit <;> cases hc : mapContains s.Targets t <;>
      cases hq : s.bQueueUnknownTargets <;>
      simp [hr, hc, hq, StatsConsistent, h1, h2, h3]
  · intro t m bd
    unfold RouteBinaryMessage
    rcases hr : TryRouteBinaryCached s (GetCacheKey t m) m bd with ⟨hit, hevs⟩
    cases hit <;> cases hc : mapContains s.Targets t <;>
      cases hq : s.bQueueUnknownTargets <;>
      by_cases hroom : s.MessageQueue.length < s.MaxQueueSize <;>
      simp [hr, hc, hq, hroom, StatsConsistent, h1, h2, h3]
  · intro t m d
    exact ⟨h1, h2, rfl⟩
  · exact StatsConsistent_FlushQueue s ⟨h1, h2, h3⟩
  · exact ⟨h1, h2, rfl⟩
  · intro n
    exact ⟨h1, h2, rfl⟩
  · exact ⟨rfl, rfl, rfl⟩

/-- Witness for C9 at the initial router: a concrete registration and a
concrete route both preserve the invariant. -/
theorem c9_witness :
    StatsConsistent (RegisterTarget initialRouter "X".data (some 1) false).1 ∧
    StatsConsistent (RouteMessage initialRouter "T".data "m".data
      "d".data).1 := by
  constructor
  · exact (c9_statistics_invariant initialRouter (by decide)).1 "X".data
      (some 1) false
  · exact (c9_statistics_invariant initialRouter
      (by decide)).2.2.2.2.2.1 "T".data "m".data "d".data

/-! ## Claim C3 -/

/-- C3: after a chunk header for `cs.length` chunks, feeding the chunk
frames of `cs` in any order (distinct indices, correct bytes) reassembles
exactly `cs.flatten`; when the expected checksum equals the CRC32 of the
reassembled bytes the payload is delivered exactly once through
`RouteBinaryMessage` (one delegate execution carrying the original bytes)
and the transfer entry is deleted; when it differs the transfer is discarded
(entry deleted) and delivery never occurs; a duplicate chunk frame is
idempotent. -/
theorem c3_chunked_transfer (s0 : BridgeState) (target method tid : FStr)
    (totalSize expected : Nat) (cs : List (List Nat))
    (xs : List (Nat × List Nat)) (del : MDelegate)
    (hne : cs ≠ [])
    (hvals : ∀ x ∈ xs, x.1 < cs.length ∧ cs[x.1]? = some x.2)
    (hnodup : (xs.map Prod.fst).Nodup)
    (hlen : xs.length = cs.length)
    (hdel : mapFind s0.router.CachedBinaryDelegates (GetCacheKey target method)
      = some del)
    (hbound : del.bound = true) :
    (expected = CalculateCRC32 cs.flatten →
      (ProcessChunks (ReceiveBinaryChunkHeader s0 target method tid totalSize
          cs.length expected) tid xs).2
        = [REvent.binCall del.id method cs.flatten] ∧
      mapFind (ProcessChunks (ReceiveBinaryChunkHeader s0 target method tid
          totalSize cs.length expected) tid xs).1.ActiveTransfers tid
        = none) ∧
    (¬ expected = CalculateCRC32 cs.flatten →
      (ProcessChunks (ReceiveBinaryChunkHeader s0 target method tid totalSize
          cs.length expected) tid xs).2 = [] ∧
      mapFind (ProcessChunks (ReceiveBinaryChunkHeader s0 target method tid
          totalSize cs.length expected) tid xs).1.ActiveTransfers tid
        = none) ∧
    (∀ (sb : BridgeState) (tid2 : FStr) (i : Nat) (b : List Nat),
      (ReceiveBinaryChunkData (ReceiveBinaryChunkData sb tid2 i b).1 tid2 i
          b).1
        = (ReceiveBinaryChunkData sb tid2 i b).1 ∧
      (ReceiveBinaryChunkData (ReceiveBinaryChunkData sb tid2 i b).1 tid2 i
          b).2 = []) := by
  have hhdr : mapFind (ReceiveBinaryChunkHeader s0 target method tid totalSize
      cs.length expected).ActiveTransfers tid
      = some ⟨target, method, totalSize, cs.length, expected, [], 0⟩ := by
    unfold ReceiveBinaryChunkHeader
    exact mapFind_mapAdd_self _ _ _
  have hxs_ne : xs ≠ [] := by
    intro h
    rw [h] at hlen
    simp at hlen
    exact hne (List.length_eq_zero.mp hlen.symm)
  have hrun := ProcessChunks_run cs tid xs
    (ReceiveBinaryChunkHeader s0 target method tid totalSize cs.length expected)
    ⟨target, method, totalSize, cs.length, expected, [], 0⟩
    hhdr rfl (by simp) (by simp) hvals hnodup
    (fun z _ => by simp [mapContains])
    (by simpa using hlen) hxs_ne
  have hnone : mapFind (ProcessChunks (ReceiveBinaryChunkHeader s0 target
      method tid totalSize cs.length expected) tid xs).1.ActiveTransfers tid
      = none := by
    rw [hrun.1]
    unfold ReceiveBinaryChunkHeader
    dsimp only
    rw [mapRemove_mapAdd_self]
    exact mapFind_mapRemove_self _ _
  have hroute : (RouteBinaryMessage (ReceiveBinaryChunkHeader s0 target method
      tid totalSize cs.length expected).router target method cs.flatten).2.2
      = [REvent.binCall del.id method cs.flatten] := by
    unfold RouteBinaryMessage TryRouteBinaryCached
    rw [show (ReceiveBinaryChunkHeader s0 target method tid totalSize cs.length
      expected).router = s0.router from rfl]
    simp [hdel, hbound]
  refine ⟨?_, ?_, ?_⟩
  · intro hexp
    refine ⟨?_, hnone⟩
    rw [hrun.2.2]
    dsimp only
    rw [if_pos hexp.symm]
    exact hroute
  · intro hexp
    refine ⟨?_, hnone⟩
    rw [hrun.2.2]
    dsimp only
    rw [if_neg (fun hh => hexp hh.symm)]
  · intro sb tid2 i b
    cases hf : mapFind sb.ActiveTransfers tid2 with
    | none =>
      simp [ReceiveBinaryChunkData_none sb tid2 i b hf]
    | some t =>
      rw [ReceiveBinaryChunkData_eq sb tid2 i b t hf]
      by_cases hfull : (mapAdd t.Chunks i b).length = t.TotalChunks
      · rw [if_pos hfull]
        have h2 := AssembleChunkedTransfer_deletes
          { sb with ActiveTransfers
              := mapAdd sb.ActiveTransfers tid2 (ChunkUpd t i b) } tid2
          (ChunkUpd t i b) (mapFind_mapAdd_self _ _ _)
        rw [ReceiveBinaryChunkData_none _ tid2 i b h2]
        exact ⟨rfl, rfl⟩
      · rw [if_neg hfull]
        dsimp only
        have huu : ChunkUpd (ChunkUpd t i b) i b = ChunkUpd t i b := by
          simp [ChunkUpd, mapAdd_mapAdd_self]
        have hch : mapAdd (ChunkUpd t i b).Chunks i b
            = (ChunkUpd t i b).Chunks := by
          simp [ChunkUpd, mapAdd_mapAdd_self]
        have hnotfull2 : ¬ ((mapAdd (ChunkUpd t i b).Chunks i b).length
            = (ChunkUpd t i b).TotalChunks) := by
          rw [hch]
          simpa [ChunkUpd] using hfull
        rw [ReceiveBinaryChunkData_eq _ tid2 i b (ChunkUpd t i b)
          (mapFind_mapAdd_self _ _ _)]
        rw [if_neg hnotfull2]
        dsimp only
        rw [huu, mapAdd_mapAdd_self]
        exact ⟨rfl, rfl⟩

/-- Witness for C3: the spec's scenario — three chunks arriving in order
`[2, 0, 1]` with a matching CRC32 are reassembled as `[1,2,3,4,5]` and
delivered once to delegate 5; the transfer entry is gone. -/
theorem c3_witness :
    (ProcessChunks (ReceiveBinaryChunkHeader chunkBridge "T".data "m".data
        "id".data 5 exChunks.length (CalculateCRC32 exChunks.flatten))
        "id".data [(2, [4, 5]), (0, [1, 2]), (1, [3])]).2
      = [REvent.binCall 5 "m".data [1, 2, 3, 4, 5]] ∧
    mapFind (ProcessChunks (ReceiveBinaryChunkHeader chunkBridge "T".data
        "m".data "id".data 5 exChunks.length (CalculateCRC32
        exChunks.flatten)) "id".data
        [(2, [4, 5]), (0, [1, 2]), (1, [3])]).1.ActiveTransfers "id".data
      = none := by
  have h := (c3_chunked_transfer chunkBridge "T".data "m".data "id".data 5
    (CalculateCRC32 exChunks.flatten) exChunks
    [(2, [4, 5]), (0, [1, 2]), (1, [3])] ⟨true, 5⟩
    (by decide) (by decide) (by decide) rfl (by decide) rfl).1 rfl
  exact ⟨h.1.trans (by decide), h.2⟩

end GameFramework
